import Mathlib

/-!
Verification development for the `anymapper` conversion dispatch engine
(package `anymapper`, current generation: `Mapper.mapperFor` in `mapper.go`
together with the built-in rule table in `builtin.go`).

The Go code is embedded shallowly:

* `reflect.Type` becomes the inductive `Ty`.  Nominal typing is kept:
  a user-declared alias of a built-in type is `Ty.named id underlying`,
  distinct from the built-in descriptor.  The platform is taken to be
  64-bit, as the repository's README fixes for byte conversions.
* `reflect.Value` becomes the inductive `Value`; mutation of a destination
  becomes returning the new destination value (`Except Err Value`).
* `MapFunc` values are represented by the first-order enumeration
  `Routine`; `runRoutine` interprets a routine.  Registry providers
  (`MapFuncProvider`) become functions `Ty → Ty → Option Routine`
  (the `*Mapper` argument Go passes to a provider is dropped: no modelled
  provider inspects it).
* The engine's recursion (`typeMapper.mapRefl` re-entering the dispatcher
  for every element/field) is made total with an explicit fuel parameter;
  `Err.outOfFuel` marks exhausted fuel and never occurs for sufficient fuel.
* `srcValue`/`dstValue` unwrap pointers and interfaces and are the identity
  on this pointer-free value universe; the one place where their behaviour
  on non-addressable map entries matters (`dstValue` of `dst.MapIndex`)
  is modelled explicitly at that call site.
* Machine integers are `Int`/`Nat` with explicit range checks mirroring
  `reflect.Value.OverflowInt`/`OverflowUint`; `float64` values are modelled
  by their exact rational value (every finite double is a rational, and
  IEEE comparisons of finite doubles agree with exact rational comparisons).
-/

/-- Width of a Go signed integer kind (`int` is the 64-bit platform int). -/
inductive IntW where
  | i | i8 | i16 | i32 | i64
deriving DecidableEq, Repr

/-- Width of a Go unsigned integer kind (`uint` is the 64-bit platform uint). -/
inductive UintW where
  | u | u8 | u16 | u32 | u64
deriving DecidableEq, Repr

/-- Width of a Go floating-point kind. -/
inductive FloatW where
  | f32 | f64
deriving DecidableEq, Repr

/-- Bit width of a signed integer kind (64-bit platform). -/
def IntW.bits : IntW → Nat
  | .i => 64 | .i8 => 8 | .i16 => 16 | .i32 => 32 | .i64 => 64

/-- Bit width of an unsigned integer kind (64-bit platform). -/
def UintW.bits : UintW → Nat
  | .u => 64 | .u8 => 8 | .u16 => 16 | .u32 => 32 | .u64 => 64

/-- Byte width of a signed integer kind. -/
def IntW.bytes (w : IntW) : Nat := w.bits / 8

/-- Byte width of an unsigned integer kind. -/
def UintW.bytes (w : UintW) : Nat := w.bits / 8

/-- Smallest value of a signed integer kind. -/
def intMin (w : IntW) : Int := -(2 ^ (w.bits - 1))

/-- Largest value of a signed integer kind. -/
def intMax (w : IntW) : Int := 2 ^ (w.bits - 1) - 1

/-- Largest value of an unsigned integer kind. -/
def uintMax (w : UintW) : Nat := 2 ^ w.bits - 1

/-- Model of `reflect.Value.OverflowInt` for a destination of kind `w`. -/
def overflowInt (w : IntW) (v : Int) : Bool :=
  decide (v < intMin w) || decide (v > intMax w)

/-- Model of `reflect.Value.OverflowUint` for a destination of kind `w`. -/
def overflowUint (w : UintW) (v : Nat) : Bool :=
  decide (v > uintMax w)

/-- Model of `reflect.Kind`. -/
inductive Kind where
  | bool | int | int8 | int16 | int32 | int64
  | uint | uint8 | uint16 | uint32 | uint64
  | float32 | float64 | string | slice | array | map | struct | interface
deriving DecidableEq, Repr

/-- Kind of a signed integer width. -/
def IntW.kind : IntW → Kind
  | .i => .int | .i8 => .int8 | .i16 => .int16 | .i32 => .int32 | .i64 => .int64

/-- Kind of an unsigned integer width. -/
def UintW.kind : UintW → Kind
  | .u => .uint | .u8 => .uint8 | .u16 => .uint16 | .u32 => .uint32 | .u64 => .uint64

/-- Kind of a floating-point width. -/
def FloatW.kind : FloatW → Kind
  | .f32 => .float32 | .f64 => .float64

/-- Whether a kind is one of `Int, Int8, Int16, Int32, Int64`. -/
def Kind.isIntK : Kind → Bool
  | .int | .int8 | .int16 | .int32 | .int64 => true
  | _ => false

/-- Whether a kind is one of `Uint, Uint8, Uint16, Uint32, Uint64`. -/
def Kind.isUintK : Kind → Bool
  | .uint | .uint8 | .uint16 | .uint32 | .uint64 => true
  | _ => false

/-- Whether a kind is `Float32` or `Float64`. -/
def Kind.isFloatK : Kind → Bool
  | .float32 | .float64 => true
  | _ => false

/-- Model of `reflect.Type`: a Go type descriptor.  `named id u` is a
user-declared type whose underlying type is `u` (e.g. `type MyInt int`);
`struct id` is a struct type identified nominally by `id` (field lists
live on struct values in this model); `any` is the empty interface. -/
inductive Ty where
  | bool
  | int (w : IntW)
  | uint (w : UintW)
  | float (w : FloatW)
  | string
  | slice (elem : Ty)
  | array (n : Nat) (elem : Ty)
  | mapTy (key elem : Ty)
  | struct (id : Nat)
  | named (id : Nat) (underlying : Ty)
  | any
deriving DecidableEq, Repr

/-- Model of `reflect.Type.Kind`: a named type has its underlying kind. -/
def Ty.kind : Ty → Kind
  | .bool => .bool
  | .int w => w.kind
  | .uint w => w.kind
  | .float w => w.kind
  | .string => .string
  | .slice _ => .slice
  | .array _ _ => .array
  | .mapTy _ _ => .map
  | .struct _ => .struct
  | .named _ u => u.kind
  | .any => .interface

/-- Element type of a slice, array or map type (`reflect.Type.Elem`),
looking through named wrappers as `reflect` does via the underlying type. -/
def Ty.elem : Ty → Option Ty
  | .slice e => some e
  | .array _ e => some e
  | .mapTy _ e => some e
  | .named _ u => u.elem
  | _ => none

/-- Key type of a map type (`reflect.Type.Key`). -/
def Ty.key : Ty → Option Ty
  | .mapTy k _ => some k
  | .named _ u => u.key
  | _ => none

/-- Whether `t.Elem().Kind() == reflect.Uint8` (byte element check). -/
def Ty.elemIsByte (t : Ty) : Bool :=
  match t.elem with
  | some e => e.kind = Kind.uint8
  | none => false

/-- Model of `isSimpleType` from `mapper.go`.  A scalar is simple iff it is
the unnamed built-in descriptor (`p == boolTy` etc.); slices/arrays/maps are
simple iff unnamed (their `String()` starts with a bracket) with simple
components; structs, named types and interfaces are never simple. -/
def isSimpleType : Ty → Bool
  | .bool => true
  | .int _ => true
  | .uint _ => true
  | .float _ => true
  | .string => true
  | .slice e => isSimpleType e
  | .array _ e => isSimpleType e
  | .mapTy k e => isSimpleType e && isSimpleType k
  | .struct _ => false
  | .named _ _ => false
  | .any => false

/-- Model of `reflect.Type.Size` in bytes (64-bit platform).  Only numeric
sizes are ever consulted (`numberFromBytes` is dispatched only to numeric
destinations); the remaining cases carry Go's 64-bit values for
completeness. -/
def Ty.size : Ty → Nat
  | .bool => 1
  | .int w => w.bytes
  | .uint w => w.bytes
  | .float .f32 => 4
  | .float .f64 => 8
  | .string => 16
  | .slice _ => 24
  | .array n e => n * e.size
  | .mapTy _ _ => 8
  | .struct _ => 0
  | .named _ u => u.size
  | .any => 16

/-- First-order name of a built-in conversion routine (`MapFunc`), plus
`custom id` for registry- or hook-supplied functions. -/
inductive Routine where
  | direct | anyAssign
  | boolToBool | boolToInt | boolToUint | boolToFloat | boolToString
  | intToBool | intToInt | intToUint | intToFloat | intToString | intToBytes
  | uintToBool | uintToInt | uintToUint | uintToFloat | uintToString | uintToBytes
  | floatToBool | floatToInt | floatToUint | floatToFloat | floatToString | floatToBytes
  | stringToBool | stringToInt | stringToUint | stringToFloat | stringToString
  | stringToByteSlice | stringToByteArray
  | byteSliceToNumber | byteSliceToString | byteArrayToNumber | byteArrayToString
  | sliceToSlice | sliceToArray | arrayToSlice | arrayToArray
  | mapToMap | mapToStruct | structsOfSameType | structsOfDifferentTypes | structToMap
  | custom (id : Nat)
deriving DecidableEq, Repr

/-- Model of `typeMapper`: a resolved cache entry.  `mapFunc = none` is the
first-class "no conversion exists" outcome. -/
structure TypeMapper where
  srcType : Ty
  dstType : Ty
  mapFunc : Option Routine
deriving DecidableEq, Repr

/-- Model of `typeMapper.match`. -/
def TypeMapper.matches_ (tm : TypeMapper) (src dst : Ty) : Bool :=
  tm.srcType = src && tm.dstType = dst

/-- Conversion errors.  `invalidMapping` is `InvalidMappingErr` with both
type descriptors and the optional reason string; `outOfFuel` is the
embedding's fuel marker (not a Go error). -/
inductive Err where
  | invalidMapping (src dst : Ty) (reason : String)
  | invalidSrc
  | invalidDst
  | outOfFuel
deriving DecidableEq, Repr

/-- Byte order (`encoding/binary.ByteOrder`). -/
inductive ByteOrder where
  | bigEndian | littleEndian
deriving DecidableEq, Repr

/-- Model of `MapFuncProvider`: yields a routine for a type pair or declines
with `none`.  (The `*Mapper` argument is dropped; see the header note.) -/
abbrev MapFuncProvider := Ty → Ty → Option Routine

/-- The dispatch cache: `map[typePair]*typeMapper` as an association list
(later insertions shadow earlier ones, like map writes). -/
abbrev Cache := List ((Ty × Ty) × TypeMapper)

/-- Lookup in the dispatch cache. -/
def cacheLookup : Cache → Ty → Ty → Option TypeMapper
  | [], _, _ => none
  | (p, tm) :: rest, s, d => if p = (s, d) then some tm else cacheLookup rest s d

/-- Model of `Hooks`.  Only `MapFuncHook` is modelled; the two value hooks
rewrite `reflect.Value`s and are absent (identity) in this embedding. -/
structure Hooks where
  mapFuncHook : Option MapFuncProvider

/-- Model of the `Mapper` configuration (current generation, `mapper.go`). -/
structure Mapper where
  strictTypes : Bool
  tag : String
  fieldMapper : Option (String → String)
  mappers : List (Ty × MapFuncProvider)
  hooks : Hooks
  byteOrder : ByteOrder
  disableCache : Bool
  cacheMap : Cache

/-- Lookup of a registered provider (`m.Mappers[t]`). -/
def lookupProv : List (Ty × MapFuncProvider) → Ty → Option MapFuncProvider
  | [], _ => none
  | (ty, p) :: rest, t => if ty = t then some p else lookupProv rest t

/-- Model of `New()` restricted to the modelled universe: tag `map`,
big-endian byte order, no registered providers (the `time.Time`/`big.*`
providers attach to types outside this value universe). -/
def mapperNew : Mapper :=
  { strictTypes := false
    tag := "map"
    fieldMapper := none
    mappers := []
    hooks := { mapFuncHook := none }
    byteOrder := .bigEndian
    disableCache := false
    cacheMap := [] }

/-- Model of `Mapper.Copy`: carries `Tag`, `FieldMapper`, `ByteOrder`,
`Hooks` and the provider map (copied into a fresh map) together with a
fresh empty cache; `StrictTypes` and `DisableCache` are not carried over
and take their zero value `false`. -/
def Mapper.copy (m : Mapper) : Mapper :=
  { strictTypes := false
    tag := m.tag
    fieldMapper := m.fieldMapper
    mappers := m.mappers
    hooks := m.hooks
    byteOrder := m.byteOrder
    disableCache := false
    cacheMap := [] }

/-- Model of `reflect.Value`: a Go runtime value of the modelled universe.
A struct value carries its fields as `(name, tag, exported, value)` where
`tag` is the raw value of the mapper's struct tag key when present. -/
inductive Value where
  | bool (b : Bool)
  | int (w : IntW) (v : Int)
  | uint (w : UintW) (v : Nat)
  | float (w : FloatW) (q : Rat)
  | str (s : String)
  | slice (elemTy : Ty) (elems : List Value)
  | array (elemTy : Ty) (elems : List Value)
  | mapV (keyTy elemTy : Ty) (entries : List (Value × Value))
  | struct (id : Nat) (fields : List (String × Option String × Bool × Value))

/-- A struct field as carried on a struct value. -/
abbrev FieldV := String × Option String × Bool × Value

/-- Name of a struct field. -/
def fname (f : FieldV) : String := f.1

/-- Raw struct-tag value of a field (for the mapper's tag key). -/
def ftag (f : FieldV) : Option String := f.2.1

/-- Whether a struct field is exported. -/
def fexported (f : FieldV) : Bool := f.2.2.1

/-- Value held by a struct field. -/
def fval (f : FieldV) : Value := f.2.2.2

/-- Replace the value held by a struct field. -/
def setFVal (f : FieldV) (v : Value) : FieldV := (f.1, f.2.1, f.2.2.1, v)

/-- Model of `reflect.Value.Type`. -/
def Value.ty : Value → Ty
  | .bool _ => .bool
  | .int w _ => .int w
  | .uint w _ => .uint w
  | .float w _ => .float w
  | .str _ => .string
  | .slice e _ => .slice e
  | .array e els => .array els.length e
  | .mapV k e _ => .mapTy k e
  | .struct id _ => .struct id

/-- Model of `reflect.Zero` (and of the zero elements `reflect.MakeSlice`
produces).  The zero of a named type is the zero of its underlying type;
a struct type's fields are not derivable from its nominal id in this model
and the zero of `any` (a nil interface) lies outside the value universe —
neither case is reachable from the claims. -/
def zeroValue : Ty → Value
  | .bool => .bool false
  | .int w => .int w 0
  | .uint w => .uint w 0
  | .float w => .float w 0
  | .string => .str ""
  | .slice e => .slice e []
  | .array n e => .array e (List.replicate n (zeroValue e))
  | .mapTy k e => .mapV k e []
  | .struct id => .struct id []
  | .named _ u => zeroValue u
  | .any => .bool false

/-- Model of `Mapper.parseTag` on a field's name and raw tag value:
returns the external name and the skip flag. -/
def parseTag (m : Mapper) (name : String) (tag : Option String) : String × Bool :=
  match tag with
  | none =>
    match m.fieldMapper with
    | some fm => (fm name, false)
    | none => (name, false)
  | some t => if t = "-" then ("", true) else (t, false)

/-- External name of a struct field under mapper `m` (first component of
`parseTag`). -/
def fieldName (m : Mapper) (f : FieldV) : String := (parseTag m (fname f) (ftag f)).1

/-- Skip flag of a struct field under mapper `m` (second component of
`parseTag`). -/
def fieldSkip (m : Mapper) (f : FieldV) : Bool := (parseTag m (fname f) (ftag f)).2

/-- Go map-key equality (`==` on comparable values), restricted to the
scalar keys of the modelled universe; composite keys are outside the model. -/
def keyEq : Value → Value → Bool
  | .bool a, .bool b => a = b
  | .int w a, .int w2 b => w = w2 && a = b
  | .uint w a, .uint w2 b => w = w2 && a = b
  | .float w a, .float w2 b => w = w2 && a = b
  | .str a, .str b => a = b
  | _, _ => false

/-- Model of `reflect.Value.MapIndex`: `none` when the key is absent. -/
def entriesLookup : List (Value × Value) → Value → Option Value
  | [], _ => none
  | (k, v) :: rest, key => if keyEq k key then some v else entriesLookup rest key

/-- Model of `reflect.Value.SetMapIndex`: replace an existing entry for the
key, else append a new one. -/
def entriesInsert : List (Value × Value) → Value → Value → List (Value × Value)
  | [], key, v => [(key, v)]
  | (k, w) :: rest, key, v =>
    if keyEq k key then (key, v) :: rest else (k, w) :: entriesInsert rest key v

/-- Decimal digit of a character, `none` for non-digits. -/
def charToDigit? (c : Char) : Option Nat :=
  if '0' ≤ c ∧ c ≤ '9' then some (c.toNat - 48) else none

/-- Character of a decimal digit. -/
def digitChar (d : Nat) : Char := Char.ofNat (48 + d)

/-- Accumulating base-10 evaluation of a digit-character list; `none` on the
first non-digit character. -/
def digitsValAux : Nat → List Char → Option Nat
  | acc, [] => some acc
  | acc, c :: rest =>
    match charToDigit? c with
    | some d => digitsValAux (10 * acc + d) rest
    | none => none

/-- Base-10 value of a non-empty all-digit character list. -/
def digitsVal? : List Char → Option Nat
  | [] => none
  | cs => digitsValAux 0 cs

/-- Model of `strconv.ParseInt(s, 10, 64)`: optional sign, then a non-empty
run of decimal digits — no hexadecimal or other prefixes, since the base is
fixed at 10 — with the signed 64-bit range check. -/
def parseIntChars : List Char → Except String Int
  | [] => .error "invalid syntax"
  | c :: rest =>
    let neg := c = '-'
    let body := if c = '-' ∨ c = '+' then rest else c :: rest
    match digitsVal? body with
    | none => .error "invalid syntax"
    | some n =>
      let v : Int := if neg then -(n : Int) else (n : Int)
      if v < -(2 ^ 63) ∨ v > 2 ^ 63 - 1 then .error "value out of range" else .ok v

def parseInt10 (s : String) : Except String Int := parseIntChars s.data

/-- Model of `strconv.ParseUint(s, 10, 64)`: a non-empty run of decimal
digits (no sign), with the unsigned 64-bit range check. -/
def parseUint10 (s : String) : Except String Nat :=
  match digitsVal? s.data with
  | none => .error "invalid syntax"
  | some n => if n > 2 ^ 64 - 1 then .error "value out of range" else .ok n

/-- Little-endian base-10 digits of `n`, computed with fuel `f ≥ n`
(empty for `0`). -/
def natDigitsLE : Nat → Nat → List Nat
  | 0, _ => []
  | f + 1, n => if n = 0 then [] else n % 10 :: natDigitsLE f (n / 10)

/-- Decimal string of a natural number (model of `strconv.FormatUint`). -/
def natDecString (n : Nat) : String :=
  if n = 0 then "0" else String.mk (((natDigitsLE n n).map digitChar).reverse)

/-- Decimal string of an integer (model of `strconv.FormatInt(v, 10)`). -/
def formatInt10 (v : Int) : String :=
  if v < 0 then "-" ++ natDecString v.natAbs else natDecString v.toNat

/-- Little-endian base-256 bytes of `v`, `w` bytes wide. -/
def leBytesAux : Nat → Nat → List Nat
  | 0, _ => []
  | w + 1, v => v % 256 :: leBytesAux w (v / 256)

/-- Fixed-width byte encoding of a natural number in the given order
(model of `binary.Write` for unsigned integers). -/
def encodeNat : ByteOrder → Nat → Nat → List Nat
  | .littleEndian, w, v => leBytesAux w v
  | .bigEndian, w, v => (leBytesAux w v).reverse

/-- Two's-complement representative of `v` in `w` bytes. -/
def twosCompNat (w : Nat) (v : Int) : Nat := (v.emod (2 ^ (8 * w))).toNat

/-- Fixed-width byte encoding of a signed integer (two's complement) in the
given order (model of `binary.Write` for signed integers). -/
def encodeInt (order : ByteOrder) (w : Nat) (v : Int) : List Nat :=
  encodeNat order w (twosCompNat w v)

/-- Little-endian base-256 value of a byte list. -/
def leVal : List Nat → Nat := List.foldr (fun b acc => b + 256 * acc) 0

/-- Unsigned value of a byte list in the given order (model of
`binary.Read` for unsigned integers). -/
def decodeNat : ByteOrder → List Nat → Nat
  | .littleEndian, bs => leVal bs
  | .bigEndian, bs => leVal bs.reverse

/-- Signed (two's complement) value of a `w`-byte list in the given order
(model of `binary.Read` for signed integers). -/
def decodeInt (order : ByteOrder) (w : Nat) (bs : List Nat) : Int :=
  let n := decodeNat order bs
  if n < 2 ^ (8 * w - 1) then (n : Int) else (n : Int) - 2 ^ (8 * w)

/-- Rational value of `float64(math.MaxInt64)`: the constant `math.MaxInt64`
is rounded to the nearest double when used in a float comparison, which is
exactly `2^63` (one more than `MaxInt64`). -/
def maxInt64F : Rat := 9223372036854775808

/-- Rational value of `float64(math.MinInt64)`: exactly `-2^63`. -/
def minInt64F : Rat := -9223372036854775808

/-- Rational value of `float64(math.MaxUint64)`: rounds to exactly `2^64`. -/
def maxUint64F : Rat := 18446744073709551616

/-- Rational value of `math.MaxFloat32`. -/
def maxFloat32F : Rat := 340282346638528859811704183484516925440

/-- Model of `reflect.Value.OverflowFloat`: only a `float32` destination can
overflow, when the absolute value exceeds `MaxFloat32`. -/
def overflowFloat (w : FloatW) (q : Rat) : Bool :=
  match w with
  | .f64 => false
  | .f32 => decide (q > maxFloat32F) || decide (q < -maxFloat32F)

/-- Truncation toward zero of a rational (the defined part of Go's
float-to-integer conversion). -/
def ratTrunc (q : Rat) : Int := if 0 ≤ q then q.floor else q.ceil

/-- Model of the Go conversion `int64(f)` for a double of exact value `q`.
Inside the int64 range the result is the truncation toward zero; outside it
the Go specification leaves the value implementation-specific — the value
used here, `math.MinInt64`, is what amd64 hardware (`cvttsd2si`) produces. -/
def goFloatToInt64 (q : Rat) : Int :=
  let t := ratTrunc q
  if -(2 ^ 63) ≤ t ∧ t < 2 ^ 63 then t else -(2 ^ 63)

/-- Model of the Go conversion `uint64(f)`: implementation-specific outside
the range (the value `0` chosen here is never relied upon by a claim). -/
def goFloatToUint64 (q : Rat) : Nat :=
  let t := ratTrunc q
  if 0 ≤ t ∧ t < 2 ^ 64 then t.toNat else 0

/-- Go string-to-bytes conversion, modelled on the ASCII fragment
(UTF-8 encoding agrees with the codepoint list there; no claim exercises
non-ASCII text). -/
def stringBytes (s : String) : List Nat := s.data.map Char.toNat

/-- Go bytes-to-string conversion, modelled on the ASCII fragment. -/
def bytesString (bs : List Nat) : String := String.mk (bs.map Char.ofNat)

/-- Byte contents of a byte-slice or byte-array value (`reflect.Value.Bytes`
resp. the explicit per-index copy in `mapByteArrayToNumber`); the dispatcher
guarantees byte elements, other elements are unreachable. -/
def valueBytes : List Value → List Nat :=
  List.map fun v => match v with | .uint .u8 b => b | _ => 0

/-- Model of `numberToBytes` (`builtin.go`): encode an integer source with
its fixed byte width in the configured order.  The platform-width `Int` and
`Uint` kinds are first promoted to 64-bit as in the source
(`reflect.ValueOf(src.Int())`).  Float sources use the IEEE bit pattern in
Go; that bit-level encoding is outside this numeric model and no claim
exercises it. -/
def numberToBytes (order : ByteOrder) (src dst : Value) : Except Err Value :=
  let src : Value := match src with
    | .int .i v => .int .i64 v
    | .uint .u v => .uint .u64 v
    | s => s
  let buf? : Option (List Nat) := match src with
    | .int w v => some (encodeInt order w.bytes v)
    | .uint w v => some (encodeNat order w.bytes v)
    | _ => none
  match buf? with
  | none => .error (.invalidMapping src.ty dst.ty "float byte encoding not modelled")
  | some buf =>
    match dst with
    | .slice elemTy _ =>
      if elemTy.kind = Kind.uint8 then
        .ok (.slice elemTy (buf.map fun b => .uint .u8 b))
      else .error (.invalidMapping src.ty dst.ty "")
    | .array elemTy elems =>
      if elemTy.kind = Kind.uint8 then
        if elems.length = buf.length then
          .ok (.array elemTy (buf.map fun b => .uint .u8 b))
        else .error (.invalidMapping src.ty dst.ty "invalid array length")
      else .error (.invalidMapping src.ty dst.ty "")
    | _ => .error (.invalidMapping src.ty dst.ty "")

/-- Model of `numberFromBytes` (`builtin.go`): the byte count must equal the
destination type's size; platform `Int`/`Uint` destinations read a 64-bit
value and range-check it, the explicit-width kinds read exactly their width
(the `binary.Read` default branch).  Float destinations decode IEEE bits in
Go, outside this numeric model and unused by the claims. -/
def numberFromBytes (order : ByteOrder) (bs : List Nat) (dst : Value) : Except Err Value :=
  let srcTy := Ty.slice (.uint .u8)
  if bs.length ≠ dst.ty.size then
    .error (.invalidMapping srcTy dst.ty "invalid byte slice length")
  else
    match dst with
    | .int .i _ =>
      let v := decodeInt order 8 bs
      if overflowInt .i v then .error (.invalidMapping srcTy (Ty.int .i) "overflow")
      else .ok (.int .i v)
    | .uint .u _ =>
      let v := decodeNat order bs
      if overflowUint .u v then .error (.invalidMapping srcTy (Ty.uint .u) "overflow")
      else .ok (.uint .u v)
    | .int w _ => .ok (.int w (decodeInt order w.bytes bs))
    | .uint w _ => .ok (.uint w (decodeNat order bs))
    | _ => .error (.invalidMapping srcTy dst.ty "float byte decoding not modelled")

/-- Routine bodies (`builtin.go`).  Pattern-match arms that the dispatcher
can never reach are mapped to the generic mapping error. -/
def mapBoolToBool (_ : Mapper) (src dst : Value) : Except Err Value :=
  match src, dst with
  | .bool b, .bool _ => .ok (.bool b)
  | _, _ => .error (.invalidMapping src.ty dst.ty "")

/-- Model of `mapBoolToInt`. -/
def mapBoolToInt (_ : Mapper) (src dst : Value) : Except Err Value :=
  match src, dst with
  | .bool b, .int w _ => .ok (.int w (if b then 1 else 0))
  | _, _ => .error (.invalidMapping src.ty dst.ty "")

/-- Model of `mapBoolToUint`. -/
def mapBoolToUint (_ : Mapper) (src dst : Value) : Except Err Value :=
  match src, dst with
  | .bool b, .uint w _ => .ok (.uint w (if b then 1 else 0))
  | _, _ => .error (.invalidMapping src.ty dst.ty "")

/-- Model of `mapBoolToFloat`. -/
def mapBoolToFloat (_ : Mapper) (src dst : Value) : Except Err Value :=
  match src, dst with
  | .bool b, .float w _ => .ok (.float w (if b then 1 else 0))
  | _, _ => .error (.invalidMapping src.ty dst.ty "")

/-- Model of `mapBoolToString`. -/
def mapBoolToString (_ : Mapper) (src dst : Value) : Except Err Value :=
  match src, dst with
  | .bool b, .str _ => .ok (.str (if b then "true" else "false"))
  | _, _ => .error (.invalidMapping src.ty dst.ty "")

/-- Model of `mapIntToBool`. -/
def mapIntToBool (_ : Mapper) (src dst : Value) : Except Err Value :=
  match src, dst with
  | .int _ v, .bool _ => .ok (.bool (decide (v ≠ 0)))
  | _, _ => .error (.invalidMapping src.ty dst.ty "")

/-- Model of `mapIntToInt`: range check against the destination width
before the write, otherwise the `overflow` error. -/
def mapIntToInt (_ : Mapper) (src dst : Value) : Except Err Value :=
  match src, dst with
  | .int _ v, .int wd _ =>
    if overflowInt wd v then .error (.invalidMapping src.ty dst.ty "overflow")
    else .ok (.int wd v)
  | _, _ => .error (.invalidMapping src.ty dst.ty "")

/-- Model of `mapIntToUint`: negative sources are rejected first, then the
unsigned range check. -/
def mapIntToUint (_ : Mapper) (src dst : Value) : Except Err Value :=
  match src, dst with
  | .int _ v, .uint wd _ =>
    if v < 0 then .error (.invalidMapping src.ty dst.ty "negative value")
    else if overflowUint wd v.toNat then .error (.invalidMapping src.ty dst.ty "overflow")
    else .ok (.uint wd v.toNat)
  | _, _ => .error (.invalidMapping src.ty dst.ty "")

/-- Model of `mapIntToFloat` (`float64(src.Int())`; round-to-double beyond
2^53 is not modelled, no claim exercises it). -/
def mapIntToFloat (_ : Mapper) (src dst : Value) : Except Err Value :=
  match src, dst with
  | .int _ v, .float w _ => .ok (.float w (v : Rat))
  | _, _ => .error (.invalidMapping src.ty dst.ty "")

/-- Model of `mapIntToString`: base-10 formatting. -/
def mapIntToString (_ : Mapper) (src dst : Value) : Except Err Value :=
  match src, dst with
  | .int _ v, .str _ => .ok (.str (formatInt10 v))
  | _, _ => .error (.invalidMapping src.ty dst.ty "")

/-- Model of `mapIntToByteSliceOrByteArray`. -/
def mapIntToByteSliceOrByteArray (m : Mapper) (src dst : Value) : Except Err Value :=
  numberToBytes m.byteOrder src dst

/-- Model of `mapUintToBool`. -/
def mapUintToBool (_ : Mapper) (src dst : Value) : Except Err Value :=
  match src, dst with
  | .uint _ v, .bool _ => .ok (.bool (decide (v ≠ 0)))
  | _, _ => .error (.invalidMapping src.ty dst.ty "")

/-- Model of `mapUintToInt`: sources above `MaxInt64` are rejected, then the
signed range check of the destination width. -/
def mapUintToInt (_ : Mapper) (src dst : Value) : Except Err Value :=
  match src, dst with
  | .uint _ v, .int wd _ =>
    if v > 2 ^ 63 - 1 then .error (.invalidMapping src.ty dst.ty "overflow")
    else if overflowInt wd v then .error (.invalidMapping src.ty dst.ty "overflow")
    else .ok (.int wd v)
  | _, _ => .error (.invalidMapping src.ty dst.ty "")

/-- Model of `mapUintToUint`. -/
def mapUintToUint (_ : Mapper) (src dst : Value) : Except Err Value :=
  match src, dst with
  | .uint _ v, .uint wd _ =>
    if overflowUint wd v then .error (.invalidMapping src.ty dst.ty "overflow")
    else .ok (.uint wd v)
  | _, _ => .error (.invalidMapping src.ty dst.ty "")

/-- Model of `mapUintToFloat`. -/
def mapUintToFloat (_ : Mapper) (src dst : Value) : Except Err Value :=
  match src, dst with
  | .uint _ v, .float w _ => .ok (.float w (v : Rat))
  | _, _ => .error (.invalidMapping src.ty dst.ty "")

/-- Model of `mapUintToString`: base-10 formatting. -/
def mapUintToString (_ : Mapper) (src dst : Value) : Except Err Value :=
  match src, dst with
  | .uint _ v, .str _ => .ok (.str (natDecString v))
  | _, _ => .error (.invalidMapping src.ty dst.ty "")

/-- Model of `mapUintToByteSliceOrByteArray`. -/
def mapUintToByteSliceOrByteArray (m : Mapper) (src dst : Value) : Except Err Value :=
  numberToBytes m.byteOrder src dst

/-- Model of `mapFloatToBool`. -/
def mapFloatToBool (_ : Mapper) (src dst : Value) : Except Err Value :=
  match src, dst with
  | .float _ q, .bool _ => .ok (.bool (decide (q ≠ 0)))
  | _, _ => .error (.invalidMapping src.ty dst.ty "")

/-- Model of `mapFloatToInt`: the guard compares the double against
`float64(math.MaxInt64) = 2^63` and `float64(math.MinInt64) = -2^63`,
then truncates toward zero and applies the destination width check. -/
def mapFloatToInt (_ : Mapper) (src dst : Value) : Except Err Value :=
  match src, dst with
  | .float _ q, .int wd _ =>
    if q > maxInt64F ∨ q < minInt64F then .error (.invalidMapping src.ty dst.ty "overflow")
    else
      let v := goFloatToInt64 q
      if overflowInt wd v then .error (.invalidMapping src.ty dst.ty "overflow")
      else .ok (.int wd v)
  | _, _ => .error (.invalidMapping src.ty dst.ty "")

/-- Model of `mapFloatToUint`. -/
def mapFloatToUint (_ : Mapper) (src dst : Value) : Except Err Value :=
  match src, dst with
  | .float _ q, .uint wd _ =>
    if q < 0 ∨ q > maxUint64F then .error (.invalidMapping src.ty dst.ty "overflow")
    else
      let v := goFloatToUint64 q
      if overflowUint wd v then .error (.invalidMapping src.ty dst.ty "overflow")
      else .ok (.uint wd v)
  | _, _ => .error (.invalidMapping src.ty dst.ty "")

/-- Model of `mapFloatToFloat`. -/
def mapFloatToFloat (_ : Mapper) (src dst : Value) : Except Err Value :=
  match src, dst with
  | .float _ q, .float wd _ =>
    if overflowFloat wd q then .error (.invalidMapping src.ty dst.ty "overflow")
    else .ok (.float wd q)
  | _, _ => .error (.invalidMapping src.ty dst.ty "")

/-- Exact-rational rendering used for `mapFloatToString`; Go uses shortest
round-trip decimal formatting of the double (`strconv.FormatFloat`), which
no claim exercises. -/
def floatDecString (q : Rat) : String :=
  if q.den = 1 then formatInt10 q.num
  else formatInt10 q.num ++ "/" ++ natDecString q.den

/-- Model of `mapFloatToString`. -/
def mapFloatToString (_ : Mapper) (src dst : Value) : Except Err Value :=
  match src, dst with
  | .float _ q, .str _ => .ok (.str (floatDecString q))
  | _, _ => .error (.invalidMapping src.ty dst.ty "")

/-- Model of `mapFloatToByteSliceOrByteArray`. -/
def mapFloatToByteSliceOrByteArray (m : Mapper) (src dst : Value) : Except Err Value :=
  numberToBytes m.byteOrder src dst

/-- Model of `mapStringToBool`: exactly the literals `true` and `false`. -/
def mapStringToBool (_ : Mapper) (src dst : Value) : Except Err Value :=
  match src, dst with
  | .str s, .bool _ =>
    if s = "true" then .ok (.bool true)
    else if s = "false" then .ok (.bool false)
    else .error (.invalidMapping src.ty dst.ty "invalid string value")
  | _, _ => .error (.invalidMapping src.ty dst.ty "")

/-- Model of `mapStringToInt`: `strconv.ParseInt(s, 10, 64)` followed by the
destination width check. -/
def mapStringToInt (_ : Mapper) (src dst : Value) : Except Err Value :=
  match src, dst with
  | .str s, .int wd _ =>
    match parseInt10 s with
    | .error e => .error (.invalidMapping src.ty dst.ty e)
    | .ok v =>
      if overflowInt wd v then .error (.invalidMapping src.ty dst.ty "overflow")
      else .ok (.int wd v)
  | _, _ => .error (.invalidMapping src.ty dst.ty "")

/-- Model of `mapStringToUint`. -/
def mapStringToUint (_ : Mapper) (src dst : Value) : Except Err Value :=
  match src, dst with
  | .str s, .uint wd _ =>
    match parseUint10 s with
    | .error e => .error (.invalidMapping src.ty dst.ty e)
    | .ok v =>
      if overflowUint wd v then .error (.invalidMapping src.ty dst.ty "overflow")
      else .ok (.uint wd v)
  | _, _ => .error (.invalidMapping src.ty dst.ty "")

/-- Decimal-fragment model of `strconv.ParseFloat(s, 64)`: optional sign,
digits with an optional fractional part.  Exponents, hexadecimal floats,
`inf`/`NaN` and round-to-nearest-double are not modelled (no claim
exercises string→float). -/
def parseFloatQ (s : String) : Except String Rat :=
  match s.data with
  | [] => .error "invalid syntax"
  | c :: rest =>
    let neg := c = '-'
    let body := if c = '-' ∨ c = '+' then rest else c :: rest
    match body.splitOn '.' with
    | [ip] =>
      match digitsVal? ip with
      | some n => .ok (if neg then -(n : Rat) else (n : Rat))
      | none => .error "invalid syntax"
    | [ip, fp] =>
      match digitsValAux 0 ip, digitsValAux 0 fp with
      | some n, some f =>
        if ip = [] ∧ fp = [] then .error "invalid syntax"
        else
          let q : Rat := (n : Rat) + (f : Rat) / ((10 : Rat) ^ fp.length)
          .ok (if neg then -q else q)
      | _, _ => .error "invalid syntax"
    | _ => .error "invalid syntax"

/-- Model of `mapStringToFloat`. -/
def mapStringToFloat (_ : Mapper) (src dst : Value) : Except Err Value :=
  match src, dst with
  | .str s, .float wd _ =>
    match parseFloatQ s with
    | .error e => .error (.invalidMapping src.ty dst.ty e)
    | .ok q =>
      if overflowFloat wd q then .error (.invalidMapping src.ty dst.ty "overflow")
      else .ok (.float wd q)
  | _, _ => .error (.invalidMapping src.ty dst.ty "")

/-- Model of `mapStringToString`. -/
def mapStringToString (_ : Mapper) (src dst : Value) : Except Err Value :=
  match src, dst with
  | .str s, .str _ => .ok (.str s)
  | _, _ => .error (.invalidMapping src.ty dst.ty "")

/-- Model of `mapStringToByteArray`: the byte length must equal the array
length exactly. -/
def mapStringToByteArray (_ : Mapper) (src dst : Value) : Except Err Value :=
  match src, dst with
  | .str s, .array elemTy elems =>
    let b := stringBytes s
    if b.length ≠ elems.length then .error (.invalidMapping src.ty dst.ty "length mismatch")
    else .ok (.array elemTy (b.map fun x => .uint .u8 x))
  | _, _ => .error (.invalidMapping src.ty dst.ty "")

/-- Model of `mapStringToByteSlice`. -/
def mapStringToByteSlice (_ : Mapper) (src dst : Value) : Except Err Value :=
  match src, dst with
  | .str s, .slice elemTy _ => .ok (.slice elemTy ((stringBytes s).map fun x => .uint .u8 x))
  | _, _ => .error (.invalidMapping src.ty dst.ty "")

/-- Model of `mapByteSliceToNumber`. -/
def mapByteSliceToNumber (m : Mapper) (src dst : Value) : Except Err Value :=
  match src with
  | .slice _ elems => numberFromBytes m.byteOrder (valueBytes elems) dst
  | _ => .error (.invalidMapping src.ty dst.ty "")

/-- Model of `mapByteSliceToString`. -/
def mapByteSliceToString (_ : Mapper) (src dst : Value) : Except Err Value :=
  match src, dst with
  | .slice _ elems, .str _ => .ok (.str (bytesString (valueBytes elems)))
  | _, _ => .error (.invalidMapping src.ty dst.ty "")

/-- Model of `mapByteArrayToNumber`. -/
def mapByteArrayToNumber (m : Mapper) (src dst : Value) : Except Err Value :=
  match src with
  | .array _ elems => numberFromBytes m.byteOrder (valueBytes elems) dst
  | _ => .error (.invalidMapping src.ty dst.ty "")

/-- Model of `mapByteArrayToString`. -/
def mapByteArrayToString (_ : Mapper) (src dst : Value) : Except Err Value :=
  match src, dst with
  | .array _ elems, .str _ => .ok (.str (bytesString (valueBytes elems)))
  | _, _ => .error (.invalidMapping src.ty dst.ty "")

/-- Model of `mapDirect`: `dst.Set(src)`. -/
def mapDirect (_ : Mapper) (src _dst : Value) : Except Err Value := .ok src

/-- Model of `mapAny` on this universe: the destination slot is settable
(the non-settable reuse path needs interface-typed occupants, which lie
outside the value universe), so `dst.Set(src)`. -/
def mapAny (_ : Mapper) (src _dst : Value) : Except Err Value := .ok src

/-- Element loop shared by the sequence routines: convert each source
element into the corresponding destination element; destination elements
beyond the source length are left as they are.  The callers establish
`dst.length ≥ src.length`, so the last arm is unreachable. -/
def mapElems (recur : Value → Value → Except Err Value) :
    List Value → List Value → Except Err (List Value)
  | [], rest => .ok rest
  | s :: ss, d :: ds => do
    let d' ← recur s d
    let rest ← mapElems recur ss ds
    .ok (d' :: rest)
  | _ :: _, [] => .error (.invalidMapping .any .any "internal: destination shorter than source")

/-- Model of `mapSliceToSlice` (`builtin.go`): same-type slices are copied
verbatim; otherwise the destination is grown when shorter than the source
(the `reflect.AppendSlice` path appends zero-valued elements; the `SetLen`
path over spare capacity is modelled the same way, taking capacity = length)
and each source element is converted into the corresponding destination
element.  The source's reuse of the previously resolved `typeMapper` when
the element types repeat is a pure memoization of the deterministic
dispatcher and is represented by calling `recur` per element. -/
def mapSliceToSlice (_ : Mapper) (recur : Value → Value → Except Err Value)
    (src dst : Value) : Except Err Value :=
  match src, dst with
  | .slice st ses, .slice dt des =>
    if Ty.slice st = Ty.slice dt then .ok (.slice dt ses)
    else
      let des := if ses.length > des.length
        then des ++ List.replicate (ses.length - des.length) (zeroValue dt)
        else des
      match mapElems recur ses des with
      | .ok out => .ok (.slice dt out)
      | .error e => .error e
  | _, _ => .error (.invalidMapping src.ty dst.ty "")

/-- Model of `mapSliceToArray` (`builtin.go`): the lengths must match
exactly; then same-element-type arrays are copied verbatim, otherwise the
elements are converted one by one.  The final loop zeroing destination
elements from `src.Len()` to `dst.Len()` is kept although the preceding
length check makes it empty. -/
def mapSliceToArray (_ : Mapper) (recur : Value → Value → Except Err Value)
    (src dst : Value) : Except Err Value :=
  match src, dst with
  | .slice st ses, .array dt des =>
    if ses.length ≠ des.length then
      .error (.invalidMapping src.ty dst.ty
        ("length mismatch: " ++ toString ses.length ++ " != " ++ toString des.length))
    else if st = dt then .ok (.array dt ses)
    else
      match mapElems recur ses des with
      | .ok out => .ok (.array dt (out.take ses.length ++
          (des.drop ses.length).map fun _ => zeroValue dt))
      | .error e => .error e
  | _, _ => .error (.invalidMapping src.ty dst.ty "")

/-- Model of `mapArrayToSlice` (`builtin.go`). -/
def mapArrayToSlice (_ : Mapper) (recur : Value → Value → Except Err Value)
    (src dst : Value) : Except Err Value :=
  match src, dst with
  | .array st ses, .slice dt des =>
    if st = dt then .ok (.slice dt ses)
    else
      let des := if ses.length > des.length
        then des ++ List.replicate (ses.length - des.length) (zeroValue dt)
        else des
      match mapElems recur ses des with
      | .ok out => .ok (.slice dt out)
      | .error e => .error e
  | _, _ => .error (.invalidMapping src.ty dst.ty "")

/-- Model of `mapArrayToArray` (`builtin.go`). -/
def mapArrayToArray (_ : Mapper) (recur : Value → Value → Except Err Value)
    (src dst : Value) : Except Err Value :=
  match src, dst with
  | .array st ses, .array dt des =>
    if ses.length ≠ des.length then
      .error (.invalidMapping src.ty dst.ty
        ("length mismatch: " ++ toString ses.length ++ " != " ++ toString des.length))
    else if st = dt then .ok (.array dt ses)
    else
      match mapElems recur ses des with
      | .ok out => .ok (.array dt out)
      | .error e => .error e
  | _, _ => .error (.invalidMapping src.ty dst.ty "")

/-- Destination-side resolution of a map entry (`m.dstValue` applied to
`dst.MapIndex(key)`): map entries are not addressable, so the resolver
yields a usable location only when the occupant is itself a (non-nil) map;
for every other element type it reports no usable location and the caller
takes the create-and-insert branch. -/
def dstValueOfMapEntry (occ? : Option Value) : Option Value :=
  match occ? with
  | some occ => match occ with | .mapV k e es => some (.mapV k e es) | _ => none
  | none => none

/-- Entry loop of `mapMapToMap` (`builtin.go`). -/
def mapMapToMapEntries (recur : Value → Value → Except Err Value)
    (sameKeys : Bool) (dk de : Ty) :
    List (Value × Value) → List (Value × Value) → Except Err (List (Value × Value))
  | [], acc => .ok acc
  | (srcKey, srcVal) :: rest, acc => do
    let dstKey ← if sameKeys then pure srcKey else
      match recur srcKey (zeroValue dk) with
      | .ok k => pure k
      | .error _ => .error (.invalidMapping srcKey.ty dk "unable to map key")
    match dstValueOfMapEntry (entriesLookup acc dstKey) with
    | some occ => do
      let nv ← recur srcVal occ
      mapMapToMapEntries recur sameKeys dk de rest (entriesInsert acc dstKey nv)
    | none => do
      let nv ← recur srcVal (zeroValue de)
      mapMapToMapEntries recur sameKeys dk de rest (entriesInsert acc dstKey nv)

/-- Model of `mapMapToMap` (`builtin.go`): each source key is converted to a
destination key (identity when the key types coincide); an existing map
occupant is reused as the destination handle when the resolver can use it,
else a fresh zero value of the element type is converted into and
inserted. -/
def mapMapToMap (_ : Mapper) (recur : Value → Value → Except Err Value)
    (src dst : Value) : Except Err Value :=
  match src, dst with
  | .mapV sk _se sentries, .mapV dk de dentries =>
    match mapMapToMapEntries recur (decide (sk = dk)) dk de sentries dentries with
    | .ok out => .ok (.mapV dk de out)
    | .error e => .error e
  | _, _ => .error (.invalidMapping src.ty dst.ty "")

/-- Field loop of `mapMapToStruct` (`builtin.go`): unexported fields,
fields with the skip tag and fields whose external name is absent from the
source map are passed over unchanged; a present field is converted in
place. -/
def mapMapToStructFields (m : Mapper) (recur : Value → Value → Except Err Value)
    (entries : List (Value × Value)) : List FieldV → Except Err (List FieldV)
  | [] => .ok []
  | f :: rest =>
    if ¬ fexported f then
      (mapMapToStructFields m recur entries rest).map (f :: ·)
    else
      let (tag, skip) := parseTag m (fname f) (ftag f)
      if skip then (mapMapToStructFields m recur entries rest).map (f :: ·)
      else
        match entriesLookup entries (.str tag) with
        | none => (mapMapToStructFields m recur entries rest).map (f :: ·)
        | some sv => do
          let nv ← recur sv (fval f)
          (mapMapToStructFields m recur entries rest).map (setFVal f nv :: ·)

/-- Model of `mapMapToStruct` (`builtin.go`). -/
def mapMapToStruct (m : Mapper) (recur : Value → Value → Except Err Value)
    (src dst : Value) : Except Err Value :=
  match src, dst with
  | .mapV _ _ entries, .struct id fields =>
    (mapMapToStructFields m recur entries fields).map fun fs => Value.struct id fs
  | _, _ => .error (.invalidMapping src.ty dst.ty "")

/-- Field loop of `mapStructsOfSameType` (`builtin.go`): positional copy,
skipping unexported and skip-tagged fields. -/
def mapStructsOfSameTypeFields (m : Mapper) (recur : Value → Value → Except Err Value) :
    List FieldV → List FieldV → Except Err (List FieldV)
  | [], rest => .ok rest
  | sf :: ss, df :: ds =>
    if ¬ fexported sf then
      (mapStructsOfSameTypeFields m recur ss ds).map (df :: ·)
    else if (parseTag m (fname sf) (ftag sf)).2 then
      (mapStructsOfSameTypeFields m recur ss ds).map (df :: ·)
    else do
      let nv ← recur (fval sf) (fval df)
      (mapStructsOfSameTypeFields m recur ss ds).map (setFVal df nv :: ·)
  | _ :: _, [] => .error (.invalidMapping .any .any "internal: field count mismatch")

/-- Model of `mapStructsOfSameType` (`builtin.go`). -/
def mapStructsOfSameType (m : Mapper) (recur : Value → Value → Except Err Value)
    (src dst : Value) : Except Err Value :=
  match src, dst with
  | .struct _ sfields, .struct id dfields =>
    (mapStructsOfSameTypeFields m recur sfields dfields).map fun fs => Value.struct id fs
  | _, _ => .error (.invalidMapping src.ty dst.ty "")

/-- The `valMap` of `mapStructsOfDifferentTypes`: external name to field
value, later fields shadowing earlier ones as Go map writes do. -/
def structValMap (m : Mapper) (fields : List FieldV) : List (String × Value) :=
  fields.foldl
    (fun acc f =>
      if ¬ fexported f then acc
      else
        let (tag, skip) := parseTag m (fname f) (ftag f)
        if skip then acc else (tag, fval f) :: acc)
    []

/-- First-match lookup in a name-to-value list. -/
def strLookup : List (String × Value) → String → Option Value
  | [], _ => none
  | (k, v) :: rest, key => if k = key then some v else strLookup rest key

/-- Destination field loop of `mapStructsOfDifferentTypes` (`builtin.go`):
fields are correlated by external name; a destination field without a
source counterpart is passed over unchanged. -/
def mapStructsOfDifferentTypesFields (m : Mapper)
    (recur : Value → Value → Except Err Value)
    (valMap : List (String × Value)) : List FieldV → Except Err (List FieldV)
  | [] => .ok []
  | f :: rest =>
    if ¬ fexported f then
      (mapStructsOfDifferentTypesFields m recur valMap rest).map (f :: ·)
    else
      let (tag, skip) := parseTag m (fname f) (ftag f)
      if skip then (mapStructsOfDifferentTypesFields m recur valMap rest).map (f :: ·)
      else
        match strLookup valMap tag with
        | none => (mapStructsOfDifferentTypesFields m recur valMap rest).map (f :: ·)
        | some sv => do
          let nv ← recur sv (fval f)
          (mapStructsOfDifferentTypesFields m recur valMap rest).map (setFVal f nv :: ·)

/-- Model of `mapStructsOfDifferentTypes` (`builtin.go`). -/
def mapStructsOfDifferentTypes (m : Mapper) (recur : Value → Value → Except Err Value)
    (src dst : Value) : Except Err Value :=
  match src, dst with
  | .struct _ sfields, .struct id dfields =>
    (mapStructsOfDifferentTypesFields m recur (structValMap m sfields) dfields).map
      fun fs => Value.struct id fs
  | _, _ => .error (.invalidMapping src.ty dst.ty "")

/-- Source field loop of `mapStructToMap` (`builtin.go`): one map write per
exported non-skipped field; an existing destination occupant is reused as
the destination handle when the resolver can use it (map occupants only),
else a fresh zero value of the element type is converted into and
inserted. -/
def mapStructToMapFields (m : Mapper) (recur : Value → Value → Except Err Value)
    (de : Ty) : List FieldV → List (Value × Value) → Except Err (List (Value × Value))
  | [], acc => .ok acc
  | f :: rest, acc =>
    if ¬ fexported f then mapStructToMapFields m recur de rest acc
    else
      let (tag, skip) := parseTag m (fname f) (ftag f)
      if skip then mapStructToMapFields m recur de rest acc
      else
        let dstKey := Value.str tag
        match dstValueOfMapEntry (entriesLookup acc dstKey) with
        | some occ => do
          let nv ← recur (fval f) occ
          mapStructToMapFields m recur de rest (entriesInsert acc dstKey nv)
        | none => do
          let nv ← recur (fval f) (zeroValue de)
          mapStructToMapFields m recur de rest (entriesInsert acc dstKey nv)

/-- Model of `mapStructToMap` (`builtin.go`). -/
def mapStructToMap (m : Mapper) (recur : Value → Value → Except Err Value)
    (src dst : Value) : Except Err Value :=
  match src, dst with
  | .struct _ sfields, .mapV dk de entries =>
    match mapStructToMapFields m recur de sfields entries with
    | .ok out => .ok (.mapV dk de out)
    | .error e => .error e
  | _, _ => .error (.invalidMapping src.ty dst.ty "")

/-- Model of `builtInTypesMapper` (`builtin.go`): the closed kind-based rule
table, with its per-group strict-mode gate `m.StrictTypes && src != dst`. -/
def builtInTypesMapper (m : Mapper) (src dst : Ty) : Option Routine :=
  match src.kind with
  | .bool =>
    if m.strictTypes ∧ src ≠ dst then none
    else
      match dst.kind with
      | .bool => some .boolToBool
      | .int | .int8 | .int16 | .int32 | .int64 => some .boolToInt
      | .uint | .uint8 | .uint16 | .uint32 | .uint64 => some .boolToUint
      | .float32 | .float64 => some .boolToFloat
      | .string => some .boolToString
      | _ => none
  | .int | .int8 | .int16 | .int32 | .int64 =>
    if m.strictTypes ∧ src ≠ dst then none
    else
      match dst.kind with
      | .bool => some .intToBool
      | .int | .int8 | .int16 | .int32 | .int64 => some .intToInt
      | .uint | .uint8 | .uint16 | .uint32 | .uint64 => some .intToUint
      | .float32 | .float64 => some .intToFloat
      | .string => some .intToString
      | .slice | .array => if dst.elemIsByte then some .intToBytes else none
      | _ => none
  | .uint | .uint8 | .uint16 | .uint32 | .uint64 =>
    if m.strictTypes ∧ src ≠ dst then none
    else
      match dst.kind with
      | .bool => some .uintToBool
      | .int | .int8 | .int16 | .int32 | .int64 => some .uintToInt
      | .uint | .uint8 | .uint16 | .uint32 | .uint64 => some .uintToUint
      | .float32 | .float64 => some .uintToFloat
      | .string => some .uintToString
      | .slice | .array => if dst.elemIsByte then some .uintToBytes else none
      | _ => none
  | .float32 | .float64 =>
    if m.strictTypes ∧ src ≠ dst then none
    else
      match dst.kind with
      | .bool => some .floatToBool
      | .int | .int8 | .int16 | .int32 | .int64 => some .floatToInt
      | .uint | .uint8 | .uint16 | .uint32 | .uint64 => some .floatToUint
      | .float32 | .float64 => some .floatToFloat
      | .string => some .floatToString
      | .slice | .array => if dst.elemIsByte then some .floatToBytes else none
      | _ => none
  | .string =>
    if m.strictTypes ∧ src ≠ dst then none
    else
      match dst.kind with
      | .bool => some .stringToBool
      | .int | .int8 | .int16 | .int32 | .int64 => some .stringToInt
      | .uint | .uint8 | .uint16 | .uint32 | .uint64 => some .stringToUint
      | .float32 | .float64 => some .stringToFloat
      | .string => some .stringToString
      | .slice => if dst.elemIsByte then some .stringToByteSlice else none
      | .array => if dst.elemIsByte then some .stringToByteArray else none
      | _ => none
  | .slice =>
    if m.strictTypes ∧ src ≠ dst then none
    else
      match dst.kind with
      | .int | .int8 | .int16 | .int32 | .int64
      | .uint | .uint8 | .uint16 | .uint32 | .uint64
      | .float32 | .float64 => if src.elemIsByte then some .byteSliceToNumber else none
      | .string => if src.elemIsByte then some .byteSliceToString else none
      | .slice => some .sliceToSlice
      | .array => some .sliceToArray
      | _ => none
  | .array =>
    if m.strictTypes ∧ src ≠ dst then none
    else
      match dst.kind with
      | .int | .int8 | .int16 | .int32 | .int64
      | .uint | .uint8 | .uint16 | .uint32 | .uint64
      | .float32 | .float64 => if src.elemIsByte then some .byteArrayToNumber else none
      | .string => if src.elemIsByte then some .byteArrayToString else none
      | .slice => some .arrayToSlice
      | .array => some .arrayToArray
      | _ => none
  | .map =>
    match dst.kind with
    | .map => some .mapToMap
    | .struct => some .mapToStruct
    | _ => none
  | .struct =>
    match dst.kind with
    | .struct => if src = dst then some .structsOfSameType else some .structsOfDifferentTypes
    | .map =>
      match dst.key with
      | some k => if k.kind = Kind.string then some .structToMap else none
      | none => none
    | _ => none
  | _ => none

/-- Cache-free core of `Mapper.mapperFor` (`mapper.go`, the body after the
cache prologue): the precedence chain hook → same-simple-type direct →
`any` destination → source-keyed provider → destination-keyed provider →
terminal decline when a provider was present → built-in rule table. -/
def mapperForCore (m : Mapper) (src dst : Ty) : TypeMapper :=
  let hookFn : Option Routine :=
    match m.hooks.mapFuncHook with
    | some h => h src dst
    | none => none
  match hookFn with
  | some fn => ⟨src, dst, some fn⟩
  | none =>
    let isSrcSimple := isSimpleType src
    let sameTypes := decide (src = dst)
    let isDstSimple := if sameTypes then isSrcSimple else isSimpleType dst
    if sameTypes && isSrcSimple then ⟨src, dst, some .direct⟩
    else if dst = Ty.any then ⟨src, dst, some .anyAssign⟩
    else
      let srcProv := if !isSrcSimple then lookupProv m.mappers src else none
      let srcFn : Option Routine :=
        match srcProv with
        | some p => p src dst
        | none => none
      match srcFn with
      | some fn => ⟨src, dst, some fn⟩
      | none =>
        let dstProv := if !sameTypes && !isDstSimple then lookupProv m.mappers dst else none
        let dstFn : Option Routine :=
          match dstProv with
          | some p => p src dst
          | none => none
        match dstFn with
        | some fn => ⟨src, dst, some fn⟩
        | none =>
          if srcProv.isSome || dstProv.isSome then ⟨src, dst, none⟩
          else ⟨src, dst, builtInTypesMapper m src dst⟩

/-- Model of `Mapper.mapperFor` with its cache prologue: with caching
enabled, a hit returns the stored entry unchanged and a miss computes the
core chain once and stores the result — found or not — before returning;
with caching disabled the core runs every time.  The updated cache is
returned explicitly. -/
def Mapper.mapperFor (m : Mapper) (src dst : Ty) : TypeMapper × Cache :=
  if !m.disableCache then
    match cacheLookup m.cacheMap src dst with
    | some tm => (tm, m.cacheMap)
    | none =>
      let tm := mapperForCore m src dst
      (tm, ((src, dst), tm) :: m.cacheMap)
  else (mapperForCore m src dst, m.cacheMap)

/-- Interpreter of a resolved routine.  `recur` is the re-entry into the
engine (`m.mapperFor(...).mapRefl(...)`) used by the structural routines
for their elements and fields. -/
def runRoutine (m : Mapper) (recur : Value → Value → Except Err Value)
    (r : Routine) (src dst : Value) : Except Err Value :=
  match r with
  | .direct => mapDirect m src dst
  | .anyAssign => mapAny m src dst
  | .boolToBool => mapBoolToBool m src dst
  | .boolToInt => mapBoolToInt m src dst
  | .boolToUint => mapBoolToUint m src dst
  | .boolToFloat => mapBoolToFloat m src dst
  | .boolToString => mapBoolToString m src dst
  | .intToBool => mapIntToBool m src dst
  | .intToInt => mapIntToInt m src dst
  | .intToUint => mapIntToUint m src dst
  | .intToFloat => mapIntToFloat m src dst
  | .intToString => mapIntToString m src dst
  | .intToBytes => mapIntToByteSliceOrByteArray m src dst
  | .uintToBool => mapUintToBool m src dst
  | .uintToInt => mapUintToInt m src dst
  | .uintToUint => mapUintToUint m src dst
  | .uintToFloat => mapUintToFloat m src dst
  | .uintToString => mapUintToString m src dst
  | .uintToBytes => mapUintToByteSliceOrByteArray m src dst
  | .floatToBool => mapFloatToBool m src dst
  | .floatToInt => mapFloatToInt m src dst
  | .floatToUint => mapFloatToUint m src dst
  | .floatToFloat => mapFloatToFloat m src dst
  | .floatToString => mapFloatToString m src dst
  | .floatToBytes => mapFloatToByteSliceOrByteArray m src dst
  | .stringToBool => mapStringToBool m src dst
  | .stringToInt => mapStringToInt m src dst
  | .stringToUint => mapStringToUint m src dst
  | .stringToFloat => mapStringToFloat m src dst
  | .stringToString => mapStringToString m src dst
  | .stringToByteSlice => mapStringToByteSlice m src dst
  | .stringToByteArray => mapStringToByteArray m src dst
  | .byteSliceToNumber => mapByteSliceToNumber m src dst
  | .byteSliceToString => mapByteSliceToString m src dst
  | .byteArrayToNumber => mapByteArrayToNumber m src dst
  | .byteArrayToString => mapByteArrayToString m src dst
  | .sliceToSlice => mapSliceToSlice m recur src dst
  | .sliceToArray => mapSliceToArray m recur src dst
  | .arrayToSlice => mapArrayToSlice m recur src dst
  | .arrayToArray => mapArrayToArray m recur src dst
  | .mapToMap => mapMapToMap m recur src dst
  | .mapToStruct => mapMapToStruct m recur src dst
  | .structsOfSameType => mapStructsOfSameType m recur src dst
  | .structsOfDifferentTypes => mapStructsOfDifferentTypes m recur src dst
  | .structToMap => mapStructToMap m recur src dst
  | .custom _ => .error (.invalidMapping src.ty dst.ty "custom routine outside the modelled universe")

/-- Model of the engine entry `Mapper.MapRefl` (with `srcValue`/`dstValue`
being the identity on this universe): resolve the pair through the
dispatcher core and run the routine; a `none` routine is the terminal
mapping error.  The fuel bounds the recursion depth through structural
routines (`typeMapper.mapRefl` re-entering the engine); `outOfFuel` never
occurs when the fuel exceeds the value's nesting depth. -/
def Mapper.mapRefl (m : Mapper) : Nat → Value → Value → Except Err Value
  | 0, _, _ => .error .outOfFuel
  | fuel + 1, src, dst =>
    let tm := mapperForCore m src.ty dst.ty
    match tm.mapFunc with
    | none => .error (.invalidMapping src.ty dst.ty "")
    | some r => runRoutine m (fun a b => Mapper.mapRefl m fuel a b) r src dst

/-- Model of `typeMapper.mapRefl` (`mapper.go`): run the stored routine;
a `nil` routine reports the mapping error for the value types. -/
def TypeMapper.mapRefl (tm : TypeMapper) (m : Mapper) (fuel : Nat)
    (src dst : Value) : Except Err Value :=
  match tm.mapFunc with
  | some r => runRoutine m (fun a b => Mapper.mapRefl m fuel a b) r src dst
  | none => .error (.invalidMapping src.ty dst.ty "")

/-! ### Shared lemmas -/

/-- Resolution of a simple type against itself is the direct-copy routine
and conversion returns the source value unchanged (the `sameTypes &&
isSrcSimple` branch of `mapperFor` followed by `mapDirect`). -/
theorem mapRefl_simple_same (m : Mapper) (fuel : Nat) (src dst : Value)
    (hHook : m.hooks.mapFuncHook = none)
    (hSimple : isSimpleType src.ty = true)
    (hty : dst.ty = src.ty) :
    m.mapRefl (fuel + 1) src dst = .ok src := by
  have hcore : mapperForCore m src.ty dst.ty = ⟨src.ty, dst.ty, some .direct⟩ := by
    unfold mapperForCore
    rw [hHook, hty]
    simp [hSimple]
  unfold Mapper.mapRefl
  rw [hcore]
  rfl

/-! ### C10 — `Mapper.Copy` -/

/-- C10: `Copy` carries over `Tag`, `FieldMapper`, `ByteOrder`, `Hooks` and
the registered provider map, together with a fresh empty cache, but does
not carry over `StrictTypes` and `DisableCache`: the clone's flags are
always `false` regardless of their values in the original. -/
theorem copy_carries_config_resets_flags (m : Mapper) :
    (m.copy).tag = m.tag ∧ (m.copy).fieldMapper = m.fieldMapper ∧
    (m.copy).byteOrder = m.byteOrder ∧ (m.copy).hooks = m.hooks ∧
    (m.copy).mappers = m.mappers ∧ (m.copy).cacheMap = [] ∧
    (m.copy).strictTypes = false ∧ (m.copy).disableCache = false :=
  ⟨rfl, rfl, rfl, rfl, rfl, rfl, rfl, rfl⟩

/-! ### C1 — source-keyed provider that declines -/

/-- Non-simple source type registered with a declining provider. -/
def cexSrcTy : Ty := .named 1 .bool

/-- Non-simple destination type registered with a yielding provider. -/
def cexDstTy : Ty := .named 2 .bool

/-- A provider that recognizes its type but always declines. -/
def cexSrcProv : MapFuncProvider := fun _ _ => none

/-- A provider that always yields a routine. -/
def cexDstProv : MapFuncProvider := fun _ _ => some (.custom 1)

/-- Mapper whose registry holds a declining provider for the source type
and a yielding provider for the destination type. -/
def cexMapper : Mapper :=
  { mapperNew with mappers := [(cexSrcTy, cexSrcProv), (cexDstTy, cexDstProv)] }

/-- C1 counterexample: the registry holds a provider keyed by the source
type and that provider yields no routine, yet resolution does not terminate
with "no conversion" — the provider keyed by the destination type is
consulted and its routine is used. -/
theorem provider_decline_counterexample :
    lookupProv cexMapper.mappers cexSrcTy = some cexSrcProv ∧
    cexSrcProv cexSrcTy cexDstTy = none ∧
    mapperForCore cexMapper cexSrcTy cexDstTy = ⟨cexSrcTy, cexDstTy, some (.custom 1)⟩ :=
  ⟨rfl, rfl, rfl⟩

/-- C1 amended: when the source-keyed provider is present and declines,
resolution still consults the destination-keyed provider; only when that
provider is absent (or the destination type is simple, or it also declines)
is the outcome the terminal "no conversion" — the built-in rule table is
never consulted in either case. -/
theorem provider_decline_amended (m : Mapper) (src dst : Ty) (p : MapFuncProvider)
    (hHook : m.hooks.mapFuncHook = none)
    (hSimple : isSimpleType src = false)
    (hAny : dst ≠ Ty.any)
    (hProv : lookupProv m.mappers src = some p)
    (hDecline : p src dst = none) :
    (mapperForCore m src dst).mapFunc =
      (if isSimpleType dst then none
       else
         match lookupProv m.mappers dst with
         | some q => q src dst
         | none => none) := by
  unfold mapperForCore
  rw [hHook]
  by_cases hsd : src = dst
  · subst hsd
    simp [hSimple, hProv, hDecline, hAny]
  · simp only [hSimple, decide_eq_false hsd]
    simp only [Bool.false_and, Bool.not_false, if_true, if_false, Bool.true_and]
    rw [if_neg (by simp), if_neg hAny]
    simp only [hProv, hDecline]
    by_cases hds : isSimpleType dst
    · simp [hds, hProv]
    · simp only [eq_false_of_ne_true hds, Bool.not_false, Bool.true_and, if_pos rfl,
        if_neg hds]
      cases hq : lookupProv m.mappers dst with
      | none => simp [hProv]
      | some q =>
        cases hqr : q src dst with
        | none => simp [hProv, hqr]
        | some fn => simp [hqr]

/-- Witness for the amended C1 theorem at the concrete registry above. -/
theorem provider_decline_amended_witness :
    (mapperForCore cexMapper cexSrcTy cexDstTy).mapFunc = some (.custom 1) := by
  have h := provider_decline_amended cexMapper cexSrcTy cexDstTy cexSrcProv rfl rfl
    (by decide) rfl rfl
  rw [h]
  rfl

/-! ### C2 — cache semantics -/

/-- C2: with caching enabled, a first resolution of a pair stores the core
result — whether or not a routine was found — and a later resolution of the
same pair returns the stored entry with the cache unchanged (the precedence
chain is not re-run); an entry whose routine is `none` makes every
subsequent conversion call fail with the same mapping error for that
pair. -/
theorem cache_memoizes_resolution (m : Mapper) (src dst : Ty)
    (hc : m.disableCache = false) :
    (cacheLookup m.cacheMap src dst = none →
      m.mapperFor src dst =
        (mapperForCore m src dst, ((src, dst), mapperForCore m src dst) :: m.cacheMap) ∧
      cacheLookup (m.mapperFor src dst).2 src dst = some (mapperForCore m src dst)) ∧
    (∀ tm, cacheLookup m.cacheMap src dst = some tm → m.mapperFor src dst = (tm, m.cacheMap)) ∧
    (∀ (tm : TypeMapper) (fuel : Nat) (sv dv : Value), tm.mapFunc = none →
      tm.mapRefl m fuel sv dv = .error (.invalidMapping sv.ty dv.ty "")) := by
  refine ⟨?_, ?_, ?_⟩
  · intro hmiss
    have h1 : m.mapperFor src dst =
        (mapperForCore m src dst, ((src, dst), mapperForCore m src dst) :: m.cacheMap) := by
      unfold Mapper.mapperFor
      rw [hc, hmiss]
      rfl
    refine ⟨h1, ?_⟩
    rw [h1]
    simp [cacheLookup]
  · intro tm hhit
    unfold Mapper.mapperFor
    rw [hc, hhit]
    rfl
  · intro tm fuel sv dv hnone
    unfold TypeMapper.mapRefl
    rw [hnone]

/-- Witness for C2 at a concrete pair on the fresh default mapper. -/
theorem cache_memoizes_resolution_witness :
    mapperNew.mapperFor .bool .bool =
      (mapperForCore mapperNew .bool .bool,
        [((Ty.bool, Ty.bool), mapperForCore mapperNew .bool .bool)]) ∧
    cacheLookup (mapperNew.mapperFor .bool .bool).2 .bool .bool =
      some (mapperForCore mapperNew .bool .bool) := by
  have h := (cache_memoizes_resolution mapperNew .bool .bool rfl).1 rfl
  exact h

/-! ### C3 — identity law for plain types -/

/-- C3: converting a value of a plain (simple built-in) type into a
writable destination of the same type succeeds and yields the source value
unchanged. -/
theorem plain_type_identity (m : Mapper) (fuel : Nat) (src dst : Value)
    (hHook : m.hooks.mapFuncHook = none)
    (hSimple : isSimpleType src.ty = true)
    (hty : dst.ty = src.ty) :
    m.mapRefl (fuel + 1) src dst = .ok src :=
  mapRefl_simple_same m fuel src dst hHook hSimple hty

/-- Witness for C3: an `int` round-trips through the engine unchanged. -/
theorem plain_type_identity_witness :
    mapperNew.mapRefl 1 (.int .i 5) (.int .i 0) = .ok (.int .i 5) :=
  plain_type_identity mapperNew 0 (.int .i 5) (.int .i 0) rfl rfl rfl

/-! ### C4 — numeric range checks and the float-to-int guard -/

/-- C4 (bug evidence): the double of exact value `2^63` lies outside the
`int64` range, yet `mapFloatToInt` accepts it — the guard compares against
`float64(math.MaxInt64)`, which rounds up to `2^63` — and writes the
implementation-specific conversion result (`math.MinInt64` on amd64)
instead of failing with the overflow error. -/
theorem float_guard_bug :
    ((intMax .i64 : Int) : Rat) < 9223372036854775808 ∧
    mapFloatToInt mapperNew (.float .f64 9223372036854775808) (.int .i64 0) =
      .ok (.int .i64 (-9223372036854775808)) := by
  constructor
  · norm_num [intMax, IntW.bits]
  · rfl

/-! ### C6 — text to integer grammar -/

/-- Big-endian recovery of a little-endian digit list. -/
def ofLE : List Nat → Nat := List.foldr (fun d a => 10 * a + d) 0

/-- A decimal digit character decodes back to its digit. -/
theorem charToDigit_digitChar : ∀ d, d < 10 → charToDigit? (digitChar d) = some d := by
  decide

/-- Decimal digit characters are not sign characters. -/
theorem digitChar_ne_sign : ∀ d, d < 10 → digitChar d ≠ '-' ∧ digitChar d ≠ '+' := by
  decide

/-- Digits produced by `natDigitsLE` are below 10. -/
theorem natDigitsLE_lt10 : ∀ (f n d : Nat), d ∈ natDigitsLE f n → d < 10 := by
  intro f
  induction f with
  | zero => intro n d h; simp [natDigitsLE] at h
  | succ f ih =>
    intro n d h
    by_cases hn : n = 0
    · simp [natDigitsLE, hn] at h
    · simp only [natDigitsLE, if_neg hn, List.mem_cons] at h
      rcases h with h | h
      · subst h; exact Nat.mod_lt _ (by omega)
      · exact ih _ _ h

/-- `natDigitsLE` with sufficient fuel is a faithful base-10 expansion. -/
theorem ofLE_natDigitsLE : ∀ (f n : Nat), n ≤ f → ofLE (natDigitsLE f n) = n := by
  intro f
  induction f with
  | zero => intro n h; interval_cases n; rfl
  | succ f ih =>
    intro n h
    by_cases hn : n = 0
    · subst hn; rfl
    · have hdiv : n / 10 ≤ f := by
        have : n / 10 < n := Nat.div_lt_self (by omega) (by omega)
        omega
      simp only [natDigitsLE, if_neg hn, ofLE, List.foldr_cons]
      have := ih (n / 10) hdiv
      simp only [ofLE] at this
      rw [this]
      omega

/-- `natDigitsLE` of a nonzero number with nonzero fuel is nonempty. -/
theorem natDigitsLE_ne_nil (f n : Nat) (hn : n ≠ 0) (hf : 1 ≤ f) :
    natDigitsLE f n ≠ [] := by
  cases f with
  | zero => omega
  | succ f => simp [natDigitsLE, hn]

/-- `digitsValAux` evaluates a digit-character list by a base-10 fold. -/
theorem digitsValAux_map : ∀ (ds : List Nat) (acc : Nat), (∀ d ∈ ds, d < 10) →
    digitsValAux acc (ds.map digitChar) =
      some (ds.foldl (fun a d => 10 * a + d) acc) := by
  intro ds
  induction ds with
  | nil => intro acc _; rfl
  | cons d rest ih =>
    intro acc h10
    have hd : d < 10 := h10 d (by simp)
    simp only [List.map_cons, digitsValAux, charToDigit_digitChar d hd, List.foldl_cons]
    exact ih _ (fun x hx => h10 x (by simp [hx]))

/-- `digitsVal?` on a nonempty list is the accumulator run. -/
theorem digitsVal?_eq_aux (cs : List Char) (h : cs ≠ []) :
    digitsVal? cs = digitsValAux 0 cs := by
  cases cs with
  | nil => exact absurd rfl h
  | cons c rest => rfl

/-- The decimal string of a natural number parses back to it. -/
theorem digitsVal?_natDecString (n : Nat) : digitsVal? (natDecString n).data = some n := by
  by_cases hn : n = 0
  · subst hn; rfl
  · have hne : natDigitsLE n n ≠ [] := natDigitsLE_ne_nil n n hn (by omega)
    have hdata : (natDecString n).data = (natDigitsLE n n).reverse.map digitChar := by
      simp [natDecString, hn, List.map_reverse]
    rw [hdata, digitsVal?_eq_aux _ (by simp [hne]),
      digitsValAux_map _ 0 (fun d hd => natDigitsLE_lt10 n n d (List.mem_reverse.mp hd)),
      List.foldl_reverse]
    have : (natDigitsLE n n).foldr (fun d a => 10 * a + d) 0 = ofLE (natDigitsLE n n) := rfl
    rw [this, ofLE_natDigitsLE n n le_rfl]

/-- The head character of a natural number's decimal string is a digit, so
neither sign character. -/
theorem natDecString_head_not_sign (n : Nat) (c : Char) (rest : List Char)
    (h : (natDecString n).data = c :: rest) : ¬(c = '-' ∨ c = '+') := by
  by_cases hn : n = 0
  · subst hn
    have : c = '0' := by
      have h0 : ("0" : String).data = ['0'] := rfl
      rw [natDecString] at h
      simp only [if_pos rfl, h0] at h
      exact (List.cons.injEq .. ▸ h).1.symm ▸ rfl
    subst this; decide
  · have hdata : (natDecString n).data = (natDigitsLE n n).reverse.map digitChar := by
      simp [natDecString, hn, List.map_reverse]
    rw [hdata] at h
    have hc : c ∈ (natDigitsLE n n).reverse.map digitChar := by rw [h]; simp
    rcases List.mem_map.mp hc with ⟨d, hd, hcd⟩
    have hd10 : d < 10 := natDigitsLE_lt10 n n d (List.mem_reverse.mp hd)
    rcases digitChar_ne_sign d hd10 with ⟨h1, h2⟩
    subst hcd
    rintro (h | h) <;> [exact h1 h; exact h2 h]

/-- `parseInt10` on a minus sign followed by digits. -/
theorem parseInt10_neg_shape (s : String) (ds : List Char) (n : Nat)
    (hsd : s.data = '-' :: ds) (hds : digitsVal? ds = some n) (hn : n ≤ 2 ^ 63) :
    parseInt10 s = .ok (-(n : Int)) := by
  rw [parseInt10, hsd]
  simp only [parseIntChars, true_or, if_true, hds]
  rw [if_neg (by push_cast; omega :
    ¬(-((n : Nat) : Int) < -(2 ^ 63) ∨ -((n : Nat) : Int) > 2 ^ 63 - 1))]

/-- `parseInt10` on an unsigned digit run. -/
theorem parseInt10_pos_shape (s : String) (c : Char) (rest : List Char) (n : Nat)
    (hsd : s.data = c :: rest) (hsign : ¬(c = '-' ∨ c = '+'))
    (hds : digitsVal? (c :: rest) = some n) (hn : n ≤ 2 ^ 63 - 1) :
    parseInt10 s = .ok (n : Int) := by
  rw [parseInt10, hsd]
  simp only [parseIntChars, if_neg hsign, hds,
    if_neg (fun hc => hsign (Or.inl hc) : ¬ c = '-')]
  rw [if_neg (by push_cast; omega :
    ¬(((n : Nat) : Int) < -(2 ^ 63) ∨ ((n : Nat) : Int) > 2 ^ 63 - 1))]

/-- The decimal rendering of an integer parses back to it whenever the
value lies in the signed 64-bit range. -/
theorem parseInt10_formatInt10 (v : Int) (hlo : -(2 ^ 63) ≤ v) (hhi : v ≤ 2 ^ 63 - 1) :
    parseInt10 (formatInt10 v) = .ok v := by
  by_cases hv : v < 0
  · have hdata : (formatInt10 v).data = '-' :: (natDecString v.natAbs).data := by
      simp only [formatInt10, if_pos hv]
      rfl
    have h := parseInt10_neg_shape (formatInt10 v) (natDecString v.natAbs).data v.natAbs
      hdata (digitsVal?_natDecString _) (by omega)
    rw [h]
    congr 1
    omega
  · have hfmt : formatInt10 v = natDecString v.toNat := by
      simp [formatInt10, hv]
    rcases hcs : (natDecString v.toNat).data with _ | ⟨c, rest⟩
    · exfalso
      have := digitsVal?_natDecString v.toNat
      rw [hcs] at this
      exact absurd this (by simp [digitsVal?])
    · have h := parseInt10_pos_shape (formatInt10 v) c rest v.toNat
        (by rw [hfmt, hcs]) (natDecString_head_not_sign v.toNat c rest hcs)
        (by rw [← hcs]; exact digitsVal?_natDecString _) (by omega)
      rw [h]
      congr 1
      omega

/-- A successful `digitsValAux` run saw only digit characters. -/
theorem digitsValAux_all_digits : ∀ (cs : List Char) (acc n : Nat),
    digitsValAux acc cs = some n →
    cs.all (fun ch => (charToDigit? ch).isSome) = true := by
  intro cs
  induction cs with
  | nil => intro acc n _; rfl
  | cons c rest ih =>
    intro acc n h
    simp only [digitsValAux] at h
    cases hc : charToDigit? c with
    | none => rw [hc] at h; exact absurd h (by simp)
    | some d =>
      rw [hc] at h
      simp only [List.all_cons, hc, Option.isSome_some, Bool.true_and]
      exact ih _ _ h

/-- Shape of strings accepted by `parseInt10`: an optional sign followed by
a non-empty run of decimal digits. -/
def isDecIntLit (s : String) : Bool :=
  match s.data with
  | [] => false
  | c :: rest =>
    let body := if c = '-' ∨ c = '+' then rest else c :: rest
    !body.isEmpty && body.all fun ch => (charToDigit? ch).isSome

/-- C6 counterexample: a hexadecimal-prefixed string does not parse — the
engine's text-to-integer rule is fixed at base 10 — so converting `"0x2A"`
into an `int64` fails with a parse error instead of yielding `42`. -/
theorem hex_parse_counterexample :
    mapStringToInt mapperNew (.str "0x2A") (.int .i64 0) =
      .error (.invalidMapping .string (.int .i64) "invalid syntax") := rfl

/-- C6 amended: integer-to-text always formats in base 10, text-to-integer
accepts exactly an optional sign followed by decimal digits (so the base-10
rendering of any in-range integer round-trips, while hexadecimal-prefixed
literals are parse errors), and any successfully parsed string has that
decimal shape. -/
theorem base10_grammar_amended (m m2 : Mapper) (w : IntW) (v : Int) (s0 : String)
    (a : Int) (hov : overflowInt w v = false) :
    mapIntToString m (.int w v) (.str s0) = .ok (.str (formatInt10 v)) ∧
    mapStringToInt m2 (.str (formatInt10 v)) (.int w a) = .ok (.int w v) ∧
    (∀ s u, parseInt10 s = .ok u → isDecIntLit s = true) := by
  have hb : -(2 ^ 63) ≤ v ∧ v ≤ 2 ^ 63 - 1 := by
    simp only [overflowInt, Bool.or_eq_false_iff, decide_eq_false_iff_not, not_lt] at hov
    rcases hov with ⟨h1, h2⟩
    cases w <;> simp [intMin, intMax, IntW.bits] at h1 h2 <;> omega
  refine ⟨rfl, ?_, ?_⟩
  · show mapStringToInt m2 (.str (formatInt10 v)) (.int w a) = .ok (.int w v)
    simp only [mapStringToInt]
    rw [parseInt10_formatInt10 v hb.1 hb.2]
    simp [hov]
  · intro s u h
    rw [parseInt10] at h
    unfold isDecIntLit
    rcases hcs : s.data with _ | ⟨c, rest⟩
    · rw [hcs] at h; exact absurd h (by simp [parseIntChars])
    · rw [hcs] at h
      simp only [parseIntChars] at h
      simp only
      rcases hdv : digitsVal? (if c = '-' ∨ c = '+' then rest else c :: rest) with _ | n
      · rw [hdv] at h; exact absurd h (by simp)
      · have hne : (if c = '-' ∨ c = '+' then rest else c :: rest) ≠ [] := by
          intro hnil
          rw [hnil] at hdv
          exact absurd hdv (by simp [digitsVal?])
        have hall := digitsValAux_all_digits _ 0 n
          (by rw [← digitsVal?_eq_aux _ hne]; exact hdv)
        rw [hall]
        simp [List.isEmpty_iff, hne]

/-- Witness for the amended C6 theorem: `-120` round-trips and a padded
digit string is accepted by the grammar. -/
theorem base10_grammar_amended_witness :
    mapIntToString mapperNew (.int .i64 (-120)) (.str "") = .ok (.str (formatInt10 (-120))) ∧
    mapStringToInt mapperNew (.str (formatInt10 (-120))) (.int .i64 0) =
      .ok (.int .i64 (-120)) ∧
    isDecIntLit "0042" = true := by
  have h := base10_grammar_amended mapperNew mapperNew .i64 (-120) "" 0 (by decide)
  exact ⟨h.1, h.2.1, h.2.2 "0042" 42 rfl⟩

/-! ### C7 — numeric byte encoding -/

/-- The little-endian encoding has exactly its width in bytes. -/
theorem leBytesAux_length : ∀ (w v : Nat), (leBytesAux w v).length = w := by
  intro w
  induction w with
  | zero => intro v; rfl
  | succ w ih => intro v; simp [leBytesAux, ih]

/-- The little-endian encoding decodes to the value modulo its width. -/
theorem leVal_leBytesAux : ∀ (w v : Nat), leVal (leBytesAux w v) = v % 2 ^ (8 * w) := by
  intro w
  induction w with
  | zero => intro v; simp [leBytesAux, leVal, Nat.mod_one]
  | succ w ih =>
    intro v
    have hpow : 2 ^ (8 * (w + 1)) = 256 * 2 ^ (8 * w) := by
      rw [Nat.mul_succ, pow_add]
      ring
    rw [hpow, Nat.mod_mul]
    simp only [leBytesAux, leVal, List.foldr_cons]
    have := ih (v / 256)
    simp only [leVal] at this
    rw [this]

/-- C7 counterexample: the 16-bit pairing is accepted, not rejected — a
`uint16` encodes to exactly two bytes and two bytes decode back into a
`uint16`. -/
theorem sub32_width_accepted_counterexample :
    numberToBytes .bigEndian (.uint .u16 4660) (.slice (.uint .u8) []) =
      .ok (.slice (.uint .u8) [.uint .u8 18, .uint .u8 52]) ∧
    numberFromBytes .bigEndian [18, 52] (.uint .u16 0) = .ok (.uint .u16 4660) :=
  ⟨rfl, rfl⟩

/-- C7 amended: encoding a `uint32` under big-endian order yields its exact
4-byte encoding and decoding those bytes restores the value (round trip);
a byte sequence whose length differs from the destination numeric type's
exact byte width is rejected with the length error rather than zero-padded.
The claim's parenthetical "widths below 32 bits are rejected for this
pairing" does not hold of `numberToBytes`/`numberFromBytes` (it describes
the separate `time.Time` pairing). -/
theorem bytes_roundtrip_amended (v : Nat) (hv : v ≤ uintMax .u32)
    (els : List Value) (old : Nat) :
    numberToBytes .bigEndian (.uint .u32 v) (.slice (.uint .u8) els) =
      .ok (.slice (.uint .u8) ((encodeNat .bigEndian 4 v).map fun b => .uint .u8 b)) ∧
    numberFromBytes .bigEndian (encodeNat .bigEndian 4 v) (.uint .u32 old) =
      .ok (.uint .u32 v) ∧
    (∀ (order : ByteOrder) (bs : List Nat) (dst : Value), bs.length ≠ dst.ty.size →
      numberFromBytes order bs dst =
        .error (.invalidMapping (Ty.slice (.uint .u8)) dst.ty "invalid byte slice length")) := by
  have hlen : (encodeNat .bigEndian 4 v).length = 4 := by
    simp [encodeNat, leBytesAux_length]
  have hmod : v % 4294967296 = v := by
    apply Nat.mod_eq_of_lt
    have : uintMax .u32 = 2 ^ 32 - 1 := rfl
    omega
  refine ⟨?_, ?_, ?_⟩
  · simp [numberToBytes, UintW.bytes, UintW.bits, Ty.elemIsByte, Ty.kind, UintW.kind]
  · have hsz : (Value.uint .u32 old).ty.size = 4 := rfl
    simp only [numberFromBytes, hsz, hlen, ne_eq, not_true_eq_false, if_false]
    simp only [decodeNat, encodeNat, List.reverse_reverse]
    have := leVal_leBytesAux 4 v
    norm_num at this
    rw [this, hmod]
  · intro order bs dst h
    simp only [numberFromBytes, if_pos h]

/-- Witness for the amended C7 theorem at `0x12345678`. -/
theorem bytes_roundtrip_amended_witness :
    numberToBytes .bigEndian (.uint .u32 305419896) (.slice (.uint .u8) []) =
      .ok (.slice (.uint .u8) ((encodeNat .bigEndian 4 305419896).map fun b => .uint .u8 b)) ∧
    numberFromBytes .bigEndian (encodeNat .bigEndian 4 305419896) (.uint .u32 0) =
      .ok (.uint .u32 305419896) ∧
    numberFromBytes .bigEndian [1, 2, 3] (.uint .u32 0) =
      .error (.invalidMapping (Ty.slice (.uint .u8)) (Ty.uint .u32)
        "invalid byte slice length") := by
  have h := bytes_roundtrip_amended 305419896
    (by norm_num [uintMax, UintW.bits]) [] 0
  exact ⟨h.1, h.2.1, h.2.2 .bigEndian [1, 2, 3] (.uint .u32 0) (by decide)⟩

/-! ### C5 — sequence length policy -/

/-- The element loop converts the prefix and leaves the remaining
destination elements exactly as they were. -/
theorem mapElems_spec (recur : Value → Value → Except Err Value) :
    ∀ (ses des outs : List Value),
      List.Forall₂ (fun sd o => recur sd.1 sd.2 = .ok o) (ses.zip des) outs →
      ses.length ≤ des.length →
      mapElems recur ses des = .ok (outs ++ des.drop ses.length) := by
  intro ses
  induction ses with
  | nil =>
    intro des outs h _
    cases h
    simp [mapElems]
  | cons s ss ih =>
    intro des outs h hlen
    cases des with
    | nil => simp at hlen
    | cons d ds =>
      simp only [List.zip_cons_cons] at h
      cases h with
      | cons hrec hrest =>
        simp only at hrec
        simp only [mapElems, hrec, List.length_cons, List.drop_succ_cons]
        rw [ih ds _ hrest (by simpa using hlen)]
        rfl

/-- C5 counterexample: converting a 2-element source into a 5-element
destination leaves elements 3–5 holding their previous values — they are
not reset to the zero value of the element type. -/
theorem leftover_zeroing_counterexample :
    mapperNew.mapRefl 3
      (.slice (.int .i64) [.int .i64 10, .int .i64 20])
      (.slice .string [.str "a", .str "b", .str "c", .str "d", .str "e"]) =
      .ok (.slice .string [.str "10", .str "20", .str "c", .str "d", .str "e"]) ∧
    Value.str "c" ≠ zeroValue Ty.string := by
  constructor
  · rfl
  · intro h
    simp [zeroValue] at h

/-- C5 amended: for slice-to-slice conversion of distinct element types,
a destination shorter than the source is grown to the source's length with
zero-valued elements, the first source-length elements receive the
converted source elements, and destination elements beyond the source's
length retain their previous values (they are not zeroed); slice-to-array
conversion requires exactly matching lengths and fails with a length error
otherwise (its trailing zero-fill loop is unreachable). -/
theorem slice_growth_amended (m : Mapper) (recur : Value → Value → Except Err Value)
    (st dt : Ty) (ses des outs : List Value) (hty : st ≠ dt)
    (h : List.Forall₂ (fun sd o => recur sd.1 sd.2 = .ok o)
          (ses.zip (des ++ List.replicate (ses.length - des.length) (zeroValue dt))) outs) :
    mapSliceToSlice m recur (.slice st ses) (.slice dt des) =
      .ok (.slice dt (outs ++
        (des ++ List.replicate (ses.length - des.length) (zeroValue dt)).drop ses.length)) ∧
    (∀ (ses2 des2 : List Value), ses2.length ≠ des2.length →
      mapSliceToArray m recur (.slice st ses2) (.array dt des2) =
        .error (.invalidMapping (Ty.slice st) (Ty.array des2.length dt)
          ("length mismatch: " ++ toString ses2.length ++ " != " ++ toString des2.length))) := by
  constructor
  · have hne : ¬(Ty.slice st = Ty.slice dt) := by
      intro hc
      exact hty (by injection hc)
    simp only [mapSliceToSlice, if_neg hne]
    by_cases hl : ses.length > des.length
    · rw [if_pos hl]
      have hlen : ses.length ≤
          (des ++ List.replicate (ses.length - des.length) (zeroValue dt)).length := by
        simp
        omega
      rw [mapElems_spec recur ses _ outs h hlen]
    · rw [if_neg hl]
      have hzero : ses.length - des.length = 0 := by omega
      rw [hzero] at h
      simp only [List.replicate_zero, List.append_nil] at h
      rw [mapElems_spec recur ses des outs h (by omega)]
      simp [hzero]
  · intro ses2 des2 hlen
    simp only [mapSliceToArray, ne_eq]
    rw [if_pos hlen]
    rfl

/-- Witness for the amended C5 theorem: a 1-element `[]int64` source into
an empty `[]string` destination grows the destination and converts, and a
1-into-0 slice-to-array conversion is a length error. -/
theorem slice_growth_amended_witness :
    mapSliceToSlice mapperNew (mapperNew.mapRefl 1)
      (.slice (.int .i64) [.int .i64 7]) (.slice .string []) =
      .ok (.slice .string ([.str "7"] ++
        (([] : List Value) ++ List.replicate (1 - 0) (zeroValue .string)).drop 1)) ∧
    mapSliceToArray mapperNew (mapperNew.mapRefl 1)
      (.slice (.int .i64) [.int .i64 7]) (.array .string []) =
      .error (.invalidMapping (Ty.slice (.int .i64)) (Ty.array 0 .string)
        ("length mismatch: " ++ toString 1 ++ " != " ++ toString 0)) := by
  have h := slice_growth_amended mapperNew (mapperNew.mapRefl 1)
    (.int .i64) .string [.int .i64 7] [] [.str "7"] (by decide)
    (List.Forall₂.cons rfl List.Forall₂.nil)
  exact ⟨h.1, h.2 [.int .i64 7] [] (by decide)⟩

/-! ### Struct traversal lemmas (shared by the strict-mode and record claims) -/

/-- Fields that `mapStructToMap`/`mapStructsOfDifferentTypes` actually
process: exported and not skip-tagged. -/
def keptFields (m : Mapper) (fields : List FieldV) : List FieldV :=
  fields.filter fun f => fexported f && !fieldSkip m f

/-- Appending past a list that does not contain the key. -/
theorem entriesLookup_append_right (l1 l2 : List (Value × Value)) (k : Value)
    (h : entriesLookup l1 k = none) :
    entriesLookup (l1 ++ l2) k = entriesLookup l2 k := by
  induction l1 with
  | nil => rfl
  | cons p rest ih =>
    rcases p with ⟨k0, v0⟩
    simp only [entriesLookup] at h
    by_cases hk : keyEq k0 k
    · rw [if_pos hk] at h; exact absurd h (by simp)
    · rw [if_neg hk] at h
      simp only [List.cons_append, entriesLookup, if_neg hk]
      exact ih h

/-- Inserting an absent key appends the entry at the end. -/
theorem entriesInsert_notMem (acc : List (Value × Value)) (k v : Value)
    (h : entriesLookup acc k = none) : entriesInsert acc k v = acc ++ [(k, v)] := by
  induction acc with
  | nil => rfl
  | cons p rest ih =>
    rcases p with ⟨k0, v0⟩
    simp only [entriesLookup] at h
    by_cases hk : keyEq k0 k
    · rw [if_pos hk] at h; exact absurd h (by simp)
    · rw [if_neg hk] at h
      simp only [entriesInsert, if_neg hk, List.cons_append]
      rw [ih h]

/-- The singleton lookup for string keys. -/
theorem entriesLookup_singleton_str (a b : String) (v : Value) :
    entriesLookup [(Value.str a, v)] (.str b) = if a = b then some v else none := by
  by_cases h : a = b
  · subst h
    simp [entriesLookup, keyEq]
  · simp [entriesLookup, keyEq, h]

/-- Reduction of an `Except` bind on a success. -/
theorem exceptBind_ok {α β ε : Type} (w : α) (g : α → Except ε β) :
    (Except.ok w >>= g : Except ε β) = g w := rfl

/-- Reduction of an `Except` bind on an error. -/
theorem exceptBind_error {α β ε : Type} (e : ε) (g : α → Except ε β) :
    ((Except.error e : Except ε α) >>= g) = .error e := rfl

/-- Reduction of an `Except` map on a success. -/
theorem exceptMap_ok {α β ε : Type} (w : α) (g : α → β) :
    (Except.ok w : Except ε α).map g = .ok (g w) := rfl

/-- Reduction of an `Except` map on an error. -/
theorem exceptMap_error {α β ε : Type} (e : ε) (g : α → β) :
    (Except.error e : Except ε α).map g = .error e := rfl

/-- The source-field loop of `mapStructToMap` starting from entries that
contain none of the processed keys writes, in order, exactly one entry per
exported non-skipped field. -/
theorem mapStructToMapFields_spec (m : Mapper) (recur : Value → Value → Except Err Value)
    (de : Ty) :
    ∀ (fields : List FieldV) (ws : List Value) (acc : List (Value × Value)),
      List.Forall₂ (fun f w => recur (fval f) (zeroValue de) = .ok w)
        (keptFields m fields) ws →
      (∀ f ∈ keptFields m fields, entriesLookup acc (.str (fieldName m f)) = none) →
      ((keptFields m fields).map fun f => fieldName m f).Nodup →
      mapStructToMapFields m recur de fields acc =
        .ok (acc ++ ((keptFields m fields).map fun f => Value.str (fieldName m f)).zip ws) := by
  intro fields
  induction fields with
  | nil =>
    intro ws acc h _ _
    have hk : keptFields m ([] : List FieldV) = [] := rfl
    rw [hk] at h
    cases h
    simp [mapStructToMapFields, hk]
  | cons f rest ih =>
    intro ws acc h hacc hnd
    rcases hpt : parseTag m (fname f) (ftag f) with ⟨tag, skip⟩
    have hfn : fieldName m f = tag := by rw [fieldName, hpt]
    have hfs : fieldSkip m f = skip := by rw [fieldSkip, hpt]
    by_cases hexp : fexported f = true
    · by_cases hsk : skip = true
      · have hkept : keptFields m (f :: rest) = keptFields m rest := by
          simp [keptFields, List.filter_cons, hexp, hfs, hsk]
        rw [hkept] at h hacc hnd
        rw [hkept]
        simp only [mapStructToMapFields, hexp, not_true_eq_false, if_false, hpt]
        rw [if_pos hsk]
        exact ih ws acc h hacc hnd
      · have hskf : skip = false := by simpa using hsk
        have hkept : keptFields m (f :: rest) = f :: keptFields m rest := by
          simp [keptFields, List.filter_cons, hexp, hfs, hskf]
        rw [hkept] at h hacc hnd
        rw [hkept]
        cases h with
        | cons hrec hrest =>
          rename_i w ws'
          have hlooknone : entriesLookup acc (.str tag) = none := by
            have := hacc f (by simp)
            rwa [hfn] at this
          simp only [mapStructToMapFields, hexp, not_true_eq_false, if_false, hpt, hskf,
            Bool.false_eq_true, hlooknone, dstValueOfMapEntry, hrec, exceptBind_ok]
          rw [entriesInsert_notMem acc _ w hlooknone]
          have hmemnames : ∀ g ∈ keptFields m rest, fieldName m g ≠ tag := by
            intro g hg hcon
            simp only [List.map_cons, List.nodup_cons, hfn] at hnd
            exact hnd.1 (hcon ▸ List.mem_map_of_mem _ hg)
          have hacc' : ∀ g ∈ keptFields m rest,
              entriesLookup (acc ++ [(Value.str tag, w)]) (.str (fieldName m g)) = none := by
            intro g hg
            rw [entriesLookup_append_right _ _ _ (hacc g (by simp [hg])),
              entriesLookup_singleton_str]
            rw [if_neg (fun hc => hmemnames g hg hc.symm)]
          have hnd' : ((keptFields m rest).map fun g => fieldName m g).Nodup := by
            simp only [List.map_cons, List.nodup_cons] at hnd
            exact hnd.2
          rw [ih ws' (acc ++ [(Value.str tag, w)]) hrest hacc' hnd']
          simp [hfn, List.append_assoc]
    · have hexp' : fexported f = false := by simpa using hexp
      have hkept : keptFields m (f :: rest) = keptFields m rest := by
        simp [keptFields, List.filter_cons, hexp']
      rw [hkept] at h hacc hnd
      rw [hkept]
      simp only [mapStructToMapFields, hexp', Bool.false_eq_true, not_false_eq_true, if_true]
      exact ih ws acc h hacc hnd

/-- The destination-field loop of `mapMapToStruct` leaves every unexported,
skip-tagged or source-absent field exactly as it was. -/
theorem mapMapToStructFields_frame (m : Mapper) (recur : Value → Value → Except Err Value)
    (entries : List (Value × Value)) :
    ∀ (fields outFields : List FieldV),
      mapMapToStructFields m recur entries fields = .ok outFields →
      List.Forall₂ (fun f g =>
        (fexported f = false ∨ fieldSkip m f = true ∨
          entriesLookup entries (.str (fieldName m f)) = none) → g = f) fields outFields := by
  intro fields
  induction fields with
  | nil =>
    intro outFields h
    simp only [mapMapToStructFields] at h
    cases h
    exact List.Forall₂.nil
  | cons f rest ih =>
    intro outFields h
    rcases hpt : parseTag m (fname f) (ftag f) with ⟨tag, skip⟩
    have hfn : fieldName m f = tag := by rw [fieldName, hpt]
    by_cases hexp : fexported f = true
    · by_cases hsk : skip = true
      · simp only [mapMapToStructFields, hexp, not_true_eq_false, if_false, hpt] at h
        rw [if_pos hsk] at h
        cases hrec : mapMapToStructFields m recur entries rest with
        | error e => rw [hrec, exceptMap_error] at h; exact absurd h (by simp)
        | ok outs =>
          rw [hrec, exceptMap_ok] at h
          cases h
          exact List.Forall₂.cons (fun _ => rfl) (ih outs hrec)
      · have hskf : skip = false := by simpa using hsk
        cases hlook : entriesLookup entries (.str tag) with
        | none =>
          simp only [mapMapToStructFields, hexp, not_true_eq_false, if_false, hpt, hskf,
            Bool.false_eq_true, hlook] at h
          cases hrec : mapMapToStructFields m recur entries rest with
          | error e => rw [hrec, exceptMap_error] at h; exact absurd h (by simp)
          | ok outs =>
            rw [hrec, exceptMap_ok] at h
            cases h
            exact List.Forall₂.cons (fun _ => rfl) (ih outs hrec)
        | some sv =>
          simp only [mapMapToStructFields, hexp, not_true_eq_false, if_false, hpt, hskf,
            Bool.false_eq_true, hlook] at h
          cases hconv : recur sv (fval f) with
          | error e =>
            rw [hconv, exceptBind_error] at h
            exact absurd h (by simp)
          | ok nv =>
            rw [hconv, exceptBind_ok] at h
            cases hrec : mapMapToStructFields m recur entries rest with
            | error e => rw [hrec, exceptMap_error] at h; exact absurd h (by simp)
            | ok outs =>
              rw [hrec, exceptMap_ok] at h
              cases h
              refine List.Forall₂.cons ?_ (ih outs hrec)
              rintro (habs | habs | habs)
              · rw [hexp] at habs; exact absurd habs (by simp)
              · rw [fieldSkip, hpt] at habs; simp only at habs; rw [habs] at hskf
                exact absurd hskf (by simp)
              · rw [hfn] at habs; rw [habs] at hlook; exact absurd hlook (by simp)
    · have hexp' : fexported f = false := by simpa using hexp
      simp only [mapMapToStructFields, hexp', Bool.false_eq_true, not_false_eq_true,
        if_true] at h
      cases hrec : mapMapToStructFields m recur entries rest with
      | error e => rw [hrec, exceptMap_error] at h; exact absurd h (by simp)
      | ok outs =>
        rw [hrec, exceptMap_ok] at h
        cases h
        exact List.Forall₂.cons (fun _ => rfl) (ih outs hrec)

/-! ### C9 — map-to-record frame and record-to-map entries -/

/-- C9: converting an associative map into a record writes only the fields
whose external name is present as a key — every unexported, skip-tagged or
source-absent field retains exactly the value it held before — and
converting a record into an empty string-keyed map writes exactly one entry
per exported non-skipped field, keyed by the field's external name. -/
theorem mapToStruct_frame_and_structToMap_entries :
    (∀ (m : Mapper) (recur : Value → Value → Except Err Value) (kt et : Ty)
        (entries : List (Value × Value)) (id : Nat) (fields outFields : List FieldV),
        mapMapToStruct m recur (.mapV kt et entries) (.struct id fields) =
          .ok (.struct id outFields) →
        List.Forall₂ (fun f g =>
          (fexported f = false ∨ fieldSkip m f = true ∨
            entriesLookup entries (.str (fieldName m f)) = none) → g = f) fields outFields) ∧
    (∀ (m : Mapper) (recur : Value → Value → Except Err Value) (sid : Nat)
        (dk de : Ty) (fields : List FieldV) (ws : List Value),
        List.Forall₂ (fun f w => recur (fval f) (zeroValue de) = .ok w)
          (keptFields m fields) ws →
        ((keptFields m fields).map fun f => fieldName m f).Nodup →
        mapStructToMap m recur (.struct sid fields) (.mapV dk de []) =
          .ok (.mapV dk de
            (((keptFields m fields).map fun f => Value.str (fieldName m f)).zip ws))) := by
  constructor
  · intro m recur kt et entries id fields outFields h
    simp only [mapMapToStruct] at h
    cases hrec : mapMapToStructFields m recur entries fields with
    | error e => rw [hrec, exceptMap_error] at h; exact absurd h (by simp)
    | ok outs =>
      rw [hrec, exceptMap_ok] at h
      have houts : outs = outFields := by
        injection h with h1
        injection h1 with _ h2
      exact houts ▸ mapMapToStructFields_frame m recur entries fields outs hrec
  · intro m recur sid dk de fields ws hconv hnd
    simp only [mapStructToMap]
    rw [mapStructToMapFields_spec m recur de fields ws [] hconv (fun f _ => rfl) hnd]
    simp

/-- Witness for C9: a two-field record receives only the field whose tag is
present in the source map (the other keeps its prior value), and a
one-field record produces exactly one map entry. -/
theorem mapToStruct_frame_and_structToMap_entries_witness :
    List.Forall₂ (fun f g =>
      (fexported f = false ∨ fieldSkip mapperNew f = true ∨
        entriesLookup [(Value.str "bar", Value.int .i 42)]
          (.str (fieldName mapperNew f)) = none) → g = f)
      [("Foo", some "bar", true, Value.int .i 0), ("Baz", none, true, Value.str "keep")]
      [("Foo", some "bar", true, Value.int .i 42), ("Baz", none, true, Value.str "keep")] ∧
    mapStructToMap mapperNew (mapperNew.mapRefl 1)
      (.struct 1 [("Foo", none, true, Value.int .i 7)]) (.mapV .string (.int .i) []) =
      .ok (.mapV .string (.int .i)
        (((keptFields mapperNew [("Foo", none, true, Value.int .i 7)]).map
            fun f => Value.str (fieldName mapperNew f)).zip [Value.int .i 7])) := by
  constructor
  · exact mapToStruct_frame_and_structToMap_entries.1 mapperNew (mapperNew.mapRefl 1)
      .string (.int .i) [(Value.str "bar", Value.int .i 42)] 1
      [("Foo", some "bar", true, Value.int .i 0), ("Baz", none, true, Value.str "keep")]
      [("Foo", some "bar", true, Value.int .i 42), ("Baz", none, true, Value.str "keep")]
      rfl
  · exact mapToStruct_frame_and_structToMap_entries.2 mapperNew (mapperNew.mapRefl 1)
      1 .string (.int .i) [("Foo", none, true, Value.int .i 7)] [Value.int .i 7]
      (List.Forall₂.cons rfl List.Forall₂.nil) (by decide)

/-! ### C8 — strict mode -/

/-- The `valMap` fold only prepends, so a general accumulator factors out. -/
theorem structValMap_foldl_append (m : Mapper) :
    ∀ (fields : List FieldV) (acc : List (String × Value)),
      List.foldl
        (fun acc f =>
          if ¬ fexported f then acc
          else
            let (tag, skip) := parseTag m (fname f) (ftag f)
            if skip then acc else (tag, fval f) :: acc)
        acc fields =
      structValMap m fields ++ acc := by
  intro fields
  induction fields with
  | nil => intro acc; simp [structValMap]
  | cons f rest ih =>
    intro acc
    have hstep : ∀ acc2 : List (String × Value),
        (if ¬ fexported f then acc2
         else
           let (tag, skip) := parseTag m (fname f) (ftag f)
           if skip then acc2 else (tag, fval f) :: acc2) =
        (if ¬ fexported f then []
         else
           let (tag, skip) := parseTag m (fname f) (ftag f)
           if skip then [] else [(tag, fval f)]) ++ acc2 := by
      intro acc2
      rcases hpt : parseTag m (fname f) (ftag f) with ⟨tag, skip⟩
      by_cases hexp : fexported f = true
      · simp only [hexp, not_true_eq_false, if_false, hpt]
        by_cases hsk : skip = true
        · rw [if_pos hsk, if_pos hsk]; rfl
        · rw [if_neg hsk, if_neg hsk]; rfl
      · have hexp' : fexported f = false := by simpa using hexp
        simp [hexp']
    have hsvm : structValMap m (f :: rest) =
        structValMap m rest ++
          (if ¬ fexported f then []
           else
             let (tag, skip) := parseTag m (fname f) (ftag f)
             if skip then [] else [(tag, fval f)]) := by
      show List.foldl _ [] (f :: rest) = _
      rw [List.foldl_cons, hstep, List.append_nil, ih]
    rw [List.foldl_cons, hstep, ih, hsvm, List.append_assoc]

/-- The `valMap` of an all-exported, untagged, `int`-valued field list is
the reversed name-to-value list (later fields shadow earlier ones). -/
theorem structValMap_int (m : Mapper) (hfm : m.fieldMapper = none) :
    ∀ (fields : List (String × Int × Int)),
      structValMap m (fields.map fun g => (g.1, none, true, Value.int .i g.2.1)) =
        (fields.map fun g => (g.1, Value.int .i g.2.1)).reverse := by
  intro fields
  induction fields with
  | nil => rfl
  | cons g rest ih =>
    have hstep : structValMap m
        ((g.1, none, true, Value.int .i g.2.1) ::
          rest.map fun x => (x.1, none, true, Value.int .i x.2.1)) =
        structValMap m (rest.map fun x => (x.1, none, true, Value.int .i x.2.1)) ++
          [(g.1, Value.int .i g.2.1)] := by
      show List.foldl _ [] _ = _
      rw [List.foldl_cons]
      have : (if ¬ fexported ((g.1, none, true, Value.int .i g.2.1) : FieldV) then
            ([] : List (String × Value))
          else
            let (tag, skip) := parseTag m (fname ((g.1, none, true, Value.int .i g.2.1) : FieldV))
              (ftag ((g.1, none, true, Value.int .i g.2.1) : FieldV))
            if skip then [] else [(tag, fval ((g.1, none, true, Value.int .i g.2.1) : FieldV))]) =
          [(g.1, Value.int .i g.2.1)] := by
        simp [fexported, fname, ftag, fval, parseTag, hfm]
      rw [structValMap_foldl_append]
      simp only [fexported, not_true_eq_false, if_false, fname, ftag, parseTag, hfm, fval]
      rfl
    simp only [List.map_cons, hstep, ih, List.reverse_cons]

/-- Lookup to the right of a prefix that misses the key. -/
theorem strLookup_append_right (l1 l2 : List (String × Value)) (k : String)
    (h : strLookup l1 k = none) : strLookup (l1 ++ l2) k = strLookup l2 k := by
  induction l1 with
  | nil => rfl
  | cons p rest ih =>
    rcases p with ⟨k0, v0⟩
    simp only [strLookup] at h
    by_cases hk : k0 = k
    · rw [if_pos hk] at h; exact absurd h (by simp)
    · rw [if_neg hk] at h
      simp only [List.cons_append, strLookup, if_neg hk]
      exact ih h

/-- Lookup found in the prefix survives appending. -/
theorem strLookup_append_left (l1 l2 : List (String × Value)) (k : String) (v : Value)
    (h : strLookup l1 k = some v) : strLookup (l1 ++ l2) k = some v := by
  induction l1 with
  | nil => exact absurd h (by simp [strLookup])
  | cons p rest ih =>
    rcases p with ⟨k0, v0⟩
    simp only [strLookup] at h
    by_cases hk : k0 = k
    · rw [if_pos hk] at h
      simp only [List.cons_append, strLookup, if_pos hk]
      exact h
    · rw [if_neg hk] at h
      simp only [List.cons_append, strLookup, if_neg hk]
      exact ih h

/-- Absent keys look up to `none`. -/
theorem strLookup_none_of_not_mem (l : List (String × Value)) (k : String)
    (h : k ∉ l.map Prod.fst) : strLookup l k = none := by
  induction l with
  | nil => rfl
  | cons p rest ih =>
    rcases p with ⟨k0, v0⟩
    simp only [List.map_cons, List.mem_cons, not_or] at h
    have hne : ¬ k0 = k := fun hc => h.1 hc.symm
    simp only [strLookup]
    rw [if_neg hne]
    exact ih h.2

/-- In the reversed pair list of a duplicate-free field list, every field's
name finds its own value. -/
theorem strLookup_reverse_pairs :
    ∀ (fields : List (String × Int × Int)), (fields.map fun g => g.1).Nodup →
      ∀ g ∈ fields,
        strLookup ((fields.map fun x => (x.1, Value.int .i x.2.1)).reverse) g.1 =
          some (Value.int .i g.2.1) := by
  intro fields
  induction fields with
  | nil => intro _ g hg; simp at hg
  | cons f rest ih =>
    intro hnd g hg
    simp only [List.map_cons, List.nodup_cons] at hnd
    simp only [List.map_cons, List.reverse_cons]
    rcases List.mem_cons.mp hg with hgf | hgr
    · subst hgf
      have hnone : strLookup ((rest.map fun x => (x.1, Value.int .i x.2.1)).reverse) g.1 =
          none := by
        apply strLookup_none_of_not_mem
        intro hc
        apply hnd.1
        have : (rest.map fun x => (x.1, Value.int .i x.2.1)).map Prod.fst =
            rest.map fun x => x.1 := by
          rw [List.map_map]; rfl
        rw [List.map_reverse, List.mem_reverse, this] at hc
        exact hc
      rw [strLookup_append_right _ _ _ hnone]
      simp [strLookup]
    · exact strLookup_append_left _ _ _ _ (ih hnd.2 g hgr)

/-- A pointwise property lifts to `Forall₂` over two images of one list. -/
theorem forall₂_map_of_mem {α β γ : Type} (R : β → γ → Prop) (u : α → β) (w : α → γ) :
    ∀ (l : List α), (∀ a ∈ l, R (u a) (w a)) → List.Forall₂ R (l.map u) (l.map w) := by
  intro l
  induction l with
  | nil => intro _; exact List.Forall₂.nil
  | cons a rest ih =>
    intro h
    exact List.Forall₂.cons (h a (by simp)) (ih fun x hx => h x (by simp [hx]))

/-- The destination loop of `mapStructsOfDifferentTypes` on matching
`int`-valued field sets copies every source value into place. -/
theorem mapDiffFields_int (m : Mapper) (recur : Value → Value → Except Err Value)
    (hfm : m.fieldMapper = none) (valMap : List (String × Value))
    (hrec : ∀ a b : Int, recur (Value.int .i a) (Value.int .i b) = .ok (.int .i a)) :
    ∀ (fields : List (String × Int × Int)),
      (∀ g ∈ fields, strLookup valMap g.1 = some (Value.int .i g.2.1)) →
      mapStructsOfDifferentTypesFields m recur valMap
        (fields.map fun g => (g.1, none, true, Value.int .i g.2.2)) =
        .ok (fields.map fun g => (g.1, none, true, Value.int .i g.2.1)) := by
  intro fields
  induction fields with
  | nil => intro _; rfl
  | cons g rest ih =>
    intro hlook
    simp only [List.map_cons, mapStructsOfDifferentTypesFields, fexported,
      not_true_eq_false, if_false, fname, ftag, parseTag, hfm, fval]
    rw [show strLookup valMap g.1 = some (Value.int .i g.2.1) from hlook g (by simp)]
    simp only [hrec, exceptBind_ok, ih fun x hx => hlook x (by simp [hx]), exceptMap_ok]
    rfl

/-- Dispatcher-core outcome for a boolean source and integer destination
under strict typing: the built-in table yields no routine. -/
theorem core_strict_bool_int (m : Mapper) (w : IntW)
    (hs : m.strictTypes = true) (hHook : m.hooks.mapFuncHook = none) :
    mapperForCore m .bool (.int w) = ⟨.bool, .int w, none⟩ := by
  simp [mapperForCore, hHook, hs, builtInTypesMapper, Ty.kind, isSimpleType]

/-- Dispatcher-core outcome for two distinct struct types with an empty
registry: the built-in cross-type struct routine. -/
theorem core_structs_diff (m : Mapper) (i j : Nat) (hij : i ≠ j)
    (hHook : m.hooks.mapFuncHook = none) (hm : m.mappers = []) :
    mapperForCore m (.struct i) (.struct j) =
      ⟨.struct i, .struct j, some .structsOfDifferentTypes⟩ := by
  simp [mapperForCore, hHook, hm, hij, builtInTypesMapper, Ty.kind, isSimpleType,
    lookupProv]

/-- Dispatcher-core outcome for a struct source and a string-keyed map
destination with an empty registry: the built-in struct-to-map routine. -/
theorem core_struct_to_map (m : Mapper) (i : Nat) (et : Ty)
    (hHook : m.hooks.mapFuncHook = none) (hm : m.mappers = []) :
    mapperForCore m (.struct i) (.mapTy .string et) =
      ⟨.struct i, .mapTy .string et, some .structToMap⟩ := by
  simp [mapperForCore, hHook, hm, builtInTypesMapper, Ty.kind, Ty.key, isSimpleType,
    lookupProv]

/-- C8: with strict type checking enabled, converting a boolean into an
integer destination fails (the strict gate removes the built-in routine, so
the resolution-failure mapping error with both type descriptors attached is
reported), while record-to-record and record-to-map conversions of matching
field sets still succeed under the same configuration. -/
theorem strict_mode_behaviour (m : Mapper) (fuel : Nat) (b : Bool) (w : IntW) (iv : Int)
    (fields : List (String × Int × Int))
    (hs : m.strictTypes = true) (hHook : m.hooks.mapFuncHook = none)
    (hm : m.mappers = []) (hfm : m.fieldMapper = none)
    (hnd : (fields.map fun g => g.1).Nodup) :
    m.mapRefl (fuel + 1) (.bool b) (.int w iv) =
      .error (.invalidMapping .bool (.int w) "") ∧
    m.mapRefl (fuel + 2)
      (.struct 1 (fields.map fun g => (g.1, none, true, Value.int .i g.2.1)))
      (.struct 2 (fields.map fun g => (g.1, none, true, Value.int .i g.2.2))) =
      .ok (.struct 2 (fields.map fun g => (g.1, none, true, Value.int .i g.2.1))) ∧
    m.mapRefl (fuel + 2)
      (.struct 1 (fields.map fun g => (g.1, none, true, Value.int .i g.2.1)))
      (.mapV .string (.int .i) []) =
      .ok (.mapV .string (.int .i)
        (fields.map fun g => (Value.str g.1, Value.int .i g.2.1))) := by
  have hrec : ∀ a c : Int,
      m.mapRefl (fuel + 1) (Value.int .i a) (Value.int .i c) = .ok (.int .i a) :=
    fun a c => mapRefl_simple_same m fuel (.int .i a) (.int .i c) hHook rfl rfl
  refine ⟨?_, ?_, ?_⟩
  · rw [Mapper.mapRefl]
    simp only [Value.ty, core_strict_bool_int m w hs hHook]
  · rw [Mapper.mapRefl]
    simp only [Value.ty, core_structs_diff m 1 2 (by decide) hHook hm]
    simp only [runRoutine, mapStructsOfDifferentTypes]
    rw [structValMap_int m hfm fields]
    rw [mapDiffFields_int m _ hfm _ hrec fields (strLookup_reverse_pairs fields hnd)]
    rfl
  · rw [Mapper.mapRefl]
    simp only [Value.ty, core_struct_to_map m 1 (.int .i) hHook hm]
    simp only [runRoutine, mapStructToMap]
    have hkept : keptFields m (fields.map fun g => (g.1, none, true, Value.int .i g.2.1)) =
        fields.map fun g => (g.1, none, true, Value.int .i g.2.1) := by
      apply List.filter_eq_self.mpr
      intro f hf
      rcases List.mem_map.mp hf with ⟨g, _, hg⟩
      subst hg
      simp [fexported, fieldSkip, parseTag, hfm, ftag, fname]
    have hconv : List.Forall₂
        (fun f w' => m.mapRefl (fuel + 1) (fval f) (zeroValue (.int .i)) = .ok w')
        (keptFields m (fields.map fun g => (g.1, none, true, Value.int .i g.2.1)))
        (fields.map fun g => Value.int .i g.2.1) := by
      rw [hkept]
      exact forall₂_map_of_mem _ _ _ fields fun g _ => hrec g.2.1 0
    have hnd' : ((keptFields m
        (fields.map fun g => (g.1, none, true, Value.int .i g.2.1))).map
          fun f => fieldName m f).Nodup := by
      rw [hkept, List.map_map]
      have hfun : ((fun f => fieldName m f) ∘
          fun (g : String × Int × Int) => ((g.1, none, true, Value.int .i g.2.1) : FieldV)) =
          fun g => g.1 := by
        funext g
        simp [Function.comp, fieldName, fname, ftag, parseTag, hfm]
      rw [hfun]
      exact hnd
    rw [mapStructToMapFields_spec m _ (.int .i) _ _ [] hconv (fun f _ => rfl) hnd']
    rw [hkept, List.map_map, List.nil_append]
    have hfun : ((fun f => Value.str (fieldName m f)) ∘
        fun (g : String × Int × Int) => ((g.1, none, true, Value.int .i g.2.1) : FieldV)) =
        fun g => Value.str g.1 := by
      funext g
      simp [Function.comp, fieldName, fname, ftag, parseTag, hfm]
    rw [hfun, List.zip_map']

/-- Witness for C8 on a one-field record under a strict-mode mapper. -/
theorem strict_mode_behaviour_witness :
    ({ mapperNew with strictTypes := true } : Mapper).mapRefl 1 (.bool true) (.int .i 0) =
      .error (.invalidMapping .bool (.int .i) "") ∧
    ({ mapperNew with strictTypes := true } : Mapper).mapRefl 2
      (.struct 1 [("A", none, true, Value.int .i 1)])
      (.struct 2 [("A", none, true, Value.int .i 0)]) =
      .ok (.struct 2 [("A", none, true, Value.int .i 1)]) ∧
    ({ mapperNew with strictTypes := true } : Mapper).mapRefl 2
      (.struct 1 [("A", none, true, Value.int .i 1)])
      (.mapV .string (.int .i) []) =
      .ok (.mapV .string (.int .i) [(Value.str "A", Value.int .i 1)]) := by
  have h := strict_mode_behaviour { mapperNew with strictTypes := true } 0 true .i 0
    [("A", 1, 0)] rfl rfl rfl rfl (by decide)
  exact ⟨h.1, h.2.1, h.2.2⟩
